import Mathlib

/-!
# A verification model of paperless-stamp

This file shallowly embeds the core of the paperless-stamp worker — the
stamp geometry engine and overlay generator (`stamp.py`), and the
tag-driven document-processing orchestrator (`worker.py`, with the client
surface of `client.py` and `merger.py` as an explicit operation record) —
and proves properties of the embedding.

Modelling conventions:

* Python floats are idealised as rationals (`ℚ`).  The trigonometric
  evaluations `math.cos (math.radians t)` and `math.sin (math.radians t)`
  have no rational form, so they enter the geometry definitions as
  function parameters `cosdeg`/`sindeg`; every geometry theorem holds for
  all values of these parameters, hence in particular for the real
  cosine/sine.
* `hashlib.sha256` is implemented bit-exactly over `Nat` (validated
  against standard test vectors), so the tilt derivation is the real one.
* The Paperless HTTP client, the pikepdf page-dimension reader and the
  pikepdf merge are external effects; they are modelled as an injectable
  record of operations returning `Except`, and the orchestrator records
  the API calls it issues in a trace.  Raising an exception is modelled
  as returning `Except.error`; a `try/except` that swallows a failure is
  modelled by discarding the operation's result.
* `time.monotonic` deltas are an external input, passed in as
  `elapsed_ms`.
-/

set_option maxRecDepth 100000

namespace PaperlessStamp

/-- Exception kinds of exceptions.py, plus `NotImplementedError` (raised
by `PaperlessClient.upload_version` and caught by the orchestrator). -/
inductive PError
  | paperlessAPI (status_code : Int) (detail : String)
  | paperlessConnection (msg : String)
  | paperlessAuth (msg : String)
  | stampGeneration (msg : String)
  | stampMerge (msg : String)
  | notImplemented (msg : String)
  deriving DecidableEq

/-- The `str(exc)` form of an exception; `PaperlessAPIError.__init__`
formats status and detail, the other kinds carry their message. -/
def PError.message : PError → String
  | .paperlessAPI status_code detail =>
      if detail ≠ "" then
        "API error " ++ toString status_code ++ ": " ++ detail
      else
        "API error " ++ toString status_code
  | .paperlessConnection msg => msg
  | .paperlessAuth msg => msg
  | .stampGeneration msg => msg
  | .stampMerge msg => msg
  | .notImplemented msg => msg

deriving instance DecidableEq for Except

/-! ## SHA-256 (hashlib.sha256, bit-exact over `Nat`) -/

/-- Right rotation of a 32-bit word held in a `Nat`. -/
def rotr32 (n x : Nat) : Nat :=
  (x / 2 ^ n + x % 2 ^ n * 2 ^ (32 - n)) % 2 ^ 32

/-- Logical right shift. -/
def shr32 (n x : Nat) : Nat := x / 2 ^ n

/-- Sum a list of 32-bit words modulo 2^32. -/
def add32 (xs : List Nat) : Nat := xs.foldl (· + ·) 0 % 2 ^ 32

/-- Bitwise complement of a 32-bit word. -/
def not32 (x : Nat) : Nat := 4294967295 - x

/-- SHA-256 Ch function. -/
def shaCh (e f g : Nat) : Nat := (e &&& f) ^^^ (not32 e &&& g)

/-- SHA-256 Maj function. -/
def shaMaj (a b c : Nat) : Nat :=
  Nat.xor (Nat.xor (a &&& b) (a &&& c)) (b &&& c)

/-- SHA-256 big sigma 0. -/
def bigSigma0 (x : Nat) : Nat := rotr32 2 x ^^^ rotr32 13 x ^^^ rotr32 22 x

/-- SHA-256 big sigma 1. -/
def bigSigma1 (x : Nat) : Nat := rotr32 6 x ^^^ rotr32 11 x ^^^ rotr32 25 x

/-- SHA-256 small sigma 0. -/
def smallSigma0 (x : Nat) : Nat := rotr32 7 x ^^^ rotr32 18 x ^^^ shr32 3 x

/-- SHA-256 small sigma 1. -/
def smallSigma1 (x : Nat) : Nat := rotr32 17 x ^^^ rotr32 19 x ^^^ shr32 10 x

/-- SHA-256 round constants (the standard 64 values, in decimal). -/
def shaK : List Nat :=
  [1116352408, 1899447441, 3049323471, 3921009573,
   961987163, 1508970993, 2453635748, 2870763221,
   3624381080, 310598401, 607225278, 1426881987,
   1925078388, 2162078206, 2614888103, 3248222580,
   3835390401, 4022224774, 264347078, 604807628,
   770255983, 1249150122, 1555081692, 1996064986,
   2554220882, 2821834349, 2952996808, 3210313671,
   3336571891, 3584528711, 113926993, 338241895,
   666307205, 773529912, 1294757372, 1396182291,
   1695183700, 1986661051, 2177026350, 2456956037,
   2730485921, 2820302411, 3259730800, 3345764771,
   3516065817, 3600352804, 4094571909, 275423344,
   430227734, 506948616, 659060556, 883997877,
   958139571, 1322822218, 1537002063, 1747873779,
   1955562222, 2024104815, 2227730452, 2361852424,
   2428436474, 2756734187, 3204031479, 3329325298]

/-- SHA-256 initial state (the standard 8 values, in decimal). -/
def shaH0 : List Nat :=
  [1779033703, 3144134277, 1013904242, 2773480762,
   1359893119, 2600822924, 528734635, 1541459225]

/-- Big-endian byte expansion of the 64-bit bit-length field. -/
def lenBytes64 (n : Nat) : List Nat :=
  (List.range 8).map fun i => n / 2 ^ (8 * (7 - i)) % 256

/-- Pad a byte message per SHA-256: append 0x80, zeros, then the 64-bit
bit-length, reaching a multiple of 64 bytes. -/
def shaPad (msg : List Nat) : List Nat :=
  let len := msg.length
  let padZeros := (64 + 55 - len % 64) % 64
  msg ++ 0x80 :: (List.replicate padZeros 0 ++ lenBytes64 (8 * len))

/-- Split a byte list into 64-byte chunks (fuel-driven structural
recursion so kernel reduction works). -/
def chunks64 : Nat → List Nat → List (List Nat)
  | 0, _ => []
  | _, [] => []
  | fuel + 1, bs => bs.take 64 :: chunks64 fuel (bs.drop 64)

/-- The 16 big-endian 32-bit words of one 64-byte chunk. -/
def chunkWords (chunk : List Nat) : List Nat :=
  (List.range 16).map fun i =>
    chunk.getD (4 * i) 0 * 2 ^ 24 + chunk.getD (4 * i + 1) 0 * 2 ^ 16 +
      chunk.getD (4 * i + 2) 0 * 2 ^ 8 + chunk.getD (4 * i + 3) 0

/-- Message-schedule extension; the accumulator holds words most recent
first, so `W[t-2]` is index 1, `W[t-7]` index 6, `W[t-15]` index 14 and
`W[t-16]` index 15. -/
def extendSchedule : Nat → List Nat → List Nat
  | 0, acc => acc
  | fuel + 1, acc =>
    let w := add32 [smallSigma1 (acc.getD 1 0), acc.getD 6 0,
                    smallSigma0 (acc.getD 14 0), acc.getD 15 0]
    extendSchedule fuel (w :: acc)

/-- Full 64-word message schedule of one chunk. -/
def schedule (chunk : List Nat) : List Nat :=
  (extendSchedule 48 (chunkWords chunk).reverse).reverse

/-- One SHA-256 compression round on the eight working registers. -/
def shaRound (st : List Nat) (kw : Nat × Nat) : List Nat :=
  match st with
  | [a, b, c, d, e, f, g, h] =>
    let t1 := add32 [h, bigSigma1 e, shaCh e f g, kw.1, kw.2]
    let t2 := add32 [bigSigma0 a, shaMaj a b c]
    [add32 [t1, t2], a, b, c, add32 [d, t1], e, f, g]
  | other => other

/-- Compress one chunk into the running state. -/
def compress (st : List Nat) (chunk : List Nat) : List Nat :=
  let fin := (shaK.zip (schedule chunk)).foldl shaRound st
  (st.zip fin).map fun p => add32 [p.1, p.2]

/-- SHA-256 of a byte list, as the eight 32-bit state words. -/
def sha256words (msg : List Nat) : List Nat :=
  let padded := shaPad msg
  (chunks64 padded.length padded).foldl compress shaH0

/-- The lowercase hex character of a digit value below 16 (0-9 then
a-f, as Python hex formatting emits). -/
def hexDigitChar (k : Nat) : Char :=
  if k < 10 then Char.ofNat (48 + k) else Char.ofNat (87 + k)

/-- Eight lowercase hex characters of one 32-bit word, most significant
digit first. -/
def natToHex8 (n : Nat) : List Char :=
  (List.range 8).map fun i => hexDigitChar (n / 16 ^ (7 - i) % 16)

/-- The 64 lowercase hex characters of the SHA-256 digest of the ASCII
bytes of a string (`hashlib.sha256(...).hexdigest()`). -/
def sha256hexChars (s : String) : List Char :=
  (sha256words (s.toList.map Char.toNat)).flatMap natToHex8

/-! ## Python `int(s, 16)` and string helpers -/

/-- Whitespace stripped by Python around an int literal (ASCII subset;
the inputs of this program are ASCII). -/
def isPySpace (c : Char) : Bool :=
  c.toNat = 32 || c.toNat = 9 || c.toNat = 10 ||
    c.toNat = 13 || c.toNat = 11 || c.toNat = 12

/-- Strip leading and trailing whitespace from a character list. -/
def pyStripChars (cs : List Char) : List Char :=
  ((cs.dropWhile isPySpace).reverse.dropWhile isPySpace).reverse

/-- Python str.strip() (ASCII whitespace). -/
def pyStrip (s : String) : String := String.mk (pyStripChars s.toList)

/-- Hexadecimal digit value accepted by Python `int(_, 16)` (ASCII
digits and letters, both cases). -/
def hexDigitVal? (c : Char) : Option Nat :=
  let n := c.toNat
  if 48 ≤ n ∧ n ≤ 57 then some (n - 48)
  else if 97 ≤ n ∧ n ≤ 102 then some (n - 87)
  else if 65 ≤ n ∧ n ≤ 70 then some (n - 55)
  else none

/-- Accumulate hex digits, most significant first, allowing a single
underscore between two digits (as Python int literals do). -/
def parseHexDigits (acc : Nat) : List Char → Option Nat
  | [] => some acc
  | c :: cs =>
    if c = '_' then
      match cs with
      | [] => none
      | c2 :: cs2 =>
        match hexDigitVal? c2 with
        | some v => parseHexDigits (16 * acc + v) cs2
        | none => none
    else
      match hexDigitVal? c with
      | some v => parseHexDigits (16 * acc + v) cs
      | none => none

/-- Parse a nonempty run of hex digits; the first character must be a
digit (no leading underscore). -/
def parseHexSeq : List Char → Option Nat
  | [] => none
  | c :: cs =>
    match hexDigitVal? c with
    | some v => parseHexDigits v cs
    | none => none

/-- Strip an optional `0x`/`0X` prefix, and one optional underscore
directly after it, as Python `int(_, 16)` does. -/
def strip0x : List Char → List Char
  | [] => []
  | [c] => [c]
  | c1 :: c2 :: rest =>
    if c1 = '0' ∧ (c2 = 'x' ∨ c2 = 'X') then
      match rest with
      | [] => []
      | c3 :: r3 => if c3 = '_' then r3 else c3 :: r3
    else c1 :: c2 :: rest

/-- Python `int(s, 16)`: strip whitespace, optional sign, optional `0x`
prefix, then hex digits with single underscores between digits. -/
def pyIntHex? (s : String) : Option Int :=
  match pyStripChars s.toList with
  | [] => none
  | c :: rest =>
    if c = '+' then (parseHexSeq (strip0x rest)).map (Int.ofNat)
    else if c = '-' then (parseHexSeq (strip0x rest)).map (fun n => -(Int.ofNat n))
    else (parseHexSeq (strip0x (c :: rest))).map (Int.ofNat)

/-- Value of an all-hex character run, most significant first. -/
def hexListVal (cs : List Char) : Nat :=
  cs.foldl (fun a c => 16 * a + (hexDigitVal? c).getD 0) 0

/-- ASCII lowercase of one character (the tag names and configuration
strings of this program are ASCII, where Python str.lower agrees). -/
def asciiLowerChar (c : Char) : Char :=
  if 65 ≤ c.toNat ∧ c.toNat ≤ 90 then Char.ofNat (c.toNat + 32) else c

/-- ASCII uppercase of one character. -/
def asciiUpperChar (c : Char) : Char :=
  if 97 ≤ c.toNat ∧ c.toNat ≤ 122 then Char.ofNat (c.toNat - 32) else c

/-- Python str.lower() (ASCII). -/
def asciiLower (s : String) : String := String.mk (s.toList.map asciiLowerChar)

/-- Python str.upper() (ASCII). -/
def asciiUpper (s : String) : String := String.mk (s.toList.map asciiUpperChar)

/-- Python set.discard: remove an element if present. -/
def setDiscard (s : List Int) (x : Int) : List Int := s.filter (· ≠ x)

/-- Python set.add: add an element if absent. -/
def setAdd (s : List Int) (x : Int) : List Int :=
  if x ∈ s then s else s ++ [x]

/-- Python set(): deduplicate, keeping first occurrences. -/
def pySet (l : List Int) : List Int := l.foldl setAdd []

/-- Python sorted() on integers (insertion sort, ascending). -/
def pySorted (s : List Int) : List Int := s.insertionSort (· ≤ ·)

/-! ## stamp.py -/

/-- Configuration for a single stamp mark (`StampConfig`).  Layout
constants of the source are inlined at their use sites: stamp width
ratio 0.20, right edge 0.90, top edge 0.90, stack spacing 1.3, date
font ratio 0.35, padding ratio 0.25. -/
structure StampConfig where
  text : String
  doc_id : Int
  date : Option String := none
  color : String := "#003399"
  deriving DecidableEq

/-- The dataclass constructor upper-cases `text` in `__post_init__`. -/
def mkStampConfig (text : String) (doc_id : Int) (date : Option String)
    (color : String) : StampConfig :=
  { text := asciiUpper text, doc_id := doc_id, date := date, color := color }

/-- Python truthiness of an optional string (`None` and the empty string
are falsy). -/
def optTruthy (o : Option String) : Bool := o.getD "" ≠ ""

/-- Computed dimensions and font sizes for a stamp (the `layout` dict). -/
structure StampLayout where
  width : ℚ
  height : ℚ
  font_size : ℚ
  date_font_size : ℚ
  padding : ℚ
  deriving DecidableEq

/-- One millimetre in points (`reportlab.lib.units.mm` = 72 / 25.4). -/
def mmUnit : ℚ := 360 / 127

/-- The stack spacing multiplier `_STACK_SPACING`. -/
def stackSpacing : ℚ := 13 / 10

/-- Largest Courier-Bold size fitting `text` in `max_width`
(`_fit_font_size`): monospace char width ratio 0.6, minimum size 8. -/
def fit_font_size (text : String) (max_width padding : ℚ) : ℚ :=
  let available := max_width - 2 * padding
  if available ≤ 0 ∨ text = "" then 8
  else max (available / ((text.length : ℚ) * (3 / 5))) 8

/-- All dimensions and font sizes for a stamp
(`_calculate_stamp_layout`). -/
def calculate_stamp_layout (stamp : StampConfig) (stamp_width : ℚ) :
    StampLayout :=
  let font_size := fit_font_size stamp.text stamp_width (stamp_width * (1 / 4))
  let padding := font_size * (1 / 4)
  let date_font_size := font_size * (7 / 20)
  let height :=
    if optTruthy stamp.date then
      (font_size + date_font_size + 2 * mmUnit) + 2 * padding
    else font_size + 2 * padding
  { width := stamp_width, height := height, font_size := font_size,
    date_font_size := date_font_size, padding := padding }

/-- The first hash-derived integer of `_compute_tilt`:
`int(digest[:8], 16)` of the hex digest of the document id. -/
def tiltSignSource (doc_id : Int) : Int :=
  (pyIntHex? (String.mk ((sha256hexChars (toString doc_id)).take 8))).getD 0

/-- The second hash-derived integer of `_compute_tilt`:
`int(digest[8:16], 16)` of the hex digest of the document id. -/
def tiltMagnitudeSource (doc_id : Int) : Int :=
  (pyIntHex? (String.mk (((sha256hexChars (toString doc_id)).drop 8).take 8))).getD 0

/-- The deterministic tilt angle (`_compute_tilt`): two 32-bit integers
from the hex digest of the document id select sign (parity) and
magnitude.  Python's float division is idealised as exact division. -/
def compute_tilt (doc_id : Int) : ℚ :=
  let sign_source := tiltSignSource doc_id
  let magnitude_source := tiltMagnitudeSource doc_id
  let tilt_sign : ℚ := if sign_source % 2 = 1 then -1 else 1
  let tilt_magnitude : ℚ := 1 + ((magnitude_source : ℚ) / 4294967295) * 2
  tilt_sign * tilt_magnitude

/-- Stamp half-height projected on the page y-axis after rotation
(`_projected_half_height`).  `cosdeg`/`sindeg` stand for
`cos (radians _)` and `sin (radians _)`. -/
def projected_half_height (cosdeg sindeg : ℚ → ℚ)
    (stamp_width stamp_height tilt_degrees : ℚ) : ℚ :=
  (|stamp_height * cosdeg tilt_degrees| + |stamp_width * sindeg tilt_degrees|) / 2

/-- Computed placement for one stamp (`StampPlacement`). -/
structure StampPlacement where
  stamp : StampConfig
  layout : StampLayout
  tilt_degrees : ℚ
  center_x : ℚ
  center_y : ℚ
  deriving DecidableEq

/-- The stacking loop of `_calculate_stamp_placements`: place each stamp
with its top projected edge at the running `next_stamp_top_edge`, then
advance it past the stamp's projected bottom edge plus the stack gap. -/
def placeStamps (cosdeg sindeg : ℚ → ℚ) (tiltOf : Int → ℚ)
    (stamp_center_x stamp_width : ℚ) :
    ℚ → List StampConfig → List StampPlacement
  | _, [] => []
  | next_stamp_top_edge, stamp :: rest =>
    let layout := calculate_stamp_layout stamp stamp_width
    let tilt_degrees := tiltOf stamp.doc_id
    let phh := projected_half_height cosdeg sindeg layout.width layout.height
      tilt_degrees
    let stamp_center_y := next_stamp_top_edge - phh
    { stamp := stamp, layout := layout, tilt_degrees := tilt_degrees,
      center_x := stamp_center_x, center_y := stamp_center_y } ::
      placeStamps cosdeg sindeg tiltOf stamp_center_x stamp_width
        (stamp_center_y - phh - layout.height * (stackSpacing - 1)) rest

/-- Stacked placements for all stamps (`_calculate_stamp_placements`);
the tilt function is a parameter, instantiated with `compute_tilt` by the
overlay generator. -/
def calculate_stamp_placements (cosdeg sindeg : ℚ → ℚ) (tiltOf : Int → ℚ)
    (page_width page_height : ℚ) (stamps : List StampConfig)
    (stamp_width : ℚ) : List StampPlacement :=
  placeStamps cosdeg sindeg tiltOf (page_width * (9 / 10) - stamp_width / 2)
    stamp_width (page_height * (9 / 10)) stamps

/-- The parsing stage of `_hex_to_rgb`: strip leading hash marks,
require exactly six characters, parse three byte pairs with Python
`int(_, 16)`. -/
def hexToRgbInts (hex_color : String) : Except PError (Int × Int × Int) :=
  let h := hex_color.toList.dropWhile (· = '#')
  if h.length ≠ 6 then
    .error (.stampGeneration ("Invalid hex color: " ++ hex_color))
  else
    match pyIntHex? (String.mk (h.take 2)),
        pyIntHex? (String.mk ((h.drop 2).take 2)),
        pyIntHex? (String.mk (h.drop 4)) with
    | some r, some g, some b => .ok (r, g, b)
    | _, _, _ => .error (.stampGeneration ("Invalid hex color: " ++ hex_color))

/-- Hex color conversion (`_hex_to_rgb`): the parsed byte values
normalised to [0, 1] channels. -/
def hex_to_rgb (hex_color : String) : Except PError (ℚ × ℚ × ℚ) :=
  match hexToRgbInts hex_color with
  | .ok (r, g, b) => .ok ((r : ℚ) / 255, (g : ℚ) / 255, (b : ℚ) / 255)
  | .error e => .error e

/-- One rendered stamp: the placement plus its resolved RGB color.  The
reportlab canvas strokes (fuzzy border and text passes with seeded
jitter) have no observable output besides the PDF bytes, which are
abstracted to this record. -/
structure DrawnStamp where
  placement : StampPlacement
  color_rgb : ℚ × ℚ × ℚ
  deriving DecidableEq

/-- Drawing one stamp (`_draw_stamp`): resolves the color, which is the
only failure point of the drawing pass. -/
def draw_stamp (placement : StampPlacement) : Except PError DrawnStamp :=
  match hex_to_rgb placement.stamp.color with
  | .ok rgb => .ok { placement := placement, color_rgb := rgb }
  | .error e => .error e

/-- The invalid-dimension generation error message (the source formats
the two floats into this text). -/
def invalidDimensionsMessage (page_width page_height : ℚ) : String :=
  "Invalid page dimensions: " ++ toString page_width ++ "x" ++
    toString page_height

/-- Overlay generation (`generate_stamp_overlay`): validate inputs,
compute placements (stamp width is 20% of page width), draw each stamp. -/
def generate_stamp_overlay (cosdeg sindeg : ℚ → ℚ)
    (page_width page_height : ℚ) (stamps : List StampConfig) :
    Except PError (List DrawnStamp) :=
  if stamps = [] then
    .error (.stampGeneration "At least one stamp is required")
  else if page_width ≤ 0 ∨ page_height ≤ 0 then
    .error (.stampGeneration (invalidDimensionsMessage page_width page_height))
  else
    (calculate_stamp_placements cosdeg sindeg compute_tilt page_width
      page_height stamps (page_width * (1 / 5))).mapM draw_stamp

/-- Top edge of a placed stamp projected on the page y-axis. -/
def projTop (cosdeg sindeg : ℚ → ℚ) (p : StampPlacement) : ℚ :=
  p.center_y + projected_half_height cosdeg sindeg p.layout.width
    p.layout.height p.tilt_degrees

/-- Bottom edge of a placed stamp projected on the page y-axis. -/
def projBottom (cosdeg sindeg : ℚ → ℚ) (p : StampPlacement) : ℚ :=
  p.center_y - projected_half_height cosdeg sindeg p.layout.width
    p.layout.height p.tilt_degrees

/-! ## worker.py data model -/

/-- One entry of a document's `custom_fields` list; both keys may be
absent in the raw dict. -/
structure CustomFieldEntry where
  field : Option Int
  value : Option String
  deriving DecidableEq

/-- Read-only snapshot of a Paperless document as the worker sees it. -/
structure Document where
  id : Int
  title : Option String := none
  tags : List Int := []
  custom_fields : List CustomFieldEntry := []
  created : Option String := none
  deriving DecidableEq

/-- Runtime configuration (`WorkerConfig`); the connection fields and the
poll interval play no role in per-document processing and are omitted. -/
structure WorkerConfig where
  default_color : String := "#003399"
  colors : List (String × String) := []
  texts : List (String × String) := []
  date_fields : List (String × String) := []
  received_date_fallback : String := "created"
  deriving DecidableEq

/-- Resolve display text for a stamp type (`get_stamp_text`). -/
def WorkerConfig.get_stamp_text (config : WorkerConfig) (stamp_type : String) :
    String :=
  (config.texts.lookup stamp_type).getD (asciiUpper stamp_type)

/-- Resolve color for a stamp type (`get_stamp_color`). -/
def WorkerConfig.get_stamp_color (config : WorkerConfig) (stamp_type : String) :
    String :=
  (config.colors.lookup stamp_type).getD config.default_color

/-- Resolve the custom field name for a stamp type's date
(`get_date_field_name`). -/
def WorkerConfig.get_date_field_name (config : WorkerConfig)
    (stamp_type : String) : Option String :=
  config.date_fields.lookup stamp_type

/-- Outcome of a single stamp operation (`StampResult`). -/
structure StampResult where
  document_id : Int
  document_title : String
  stamp_type : String
  stamp_text : String
  stamp_date : Option String
  success : Bool
  error_message : Option String := none
  processing_ms : Option Int := none
  deriving DecidableEq

/-- The tag name/id caches of `TagResolver` (association lists standing
for the two dicts; a fresh binding is consed on, shadowing as dict
assignment does). -/
structure TagResolver where
  name_to_id : List (String × Int)
  id_to_name : List (Int × String)
  deriving DecidableEq

/-- First matching custom-field entry with a non-blank value
(the scan loop of `CustomFieldResolver.get_field_value`). -/
def findFieldValue (field_id : Int) : List CustomFieldEntry → Option String
  | [] => none
  | cf :: rest =>
    if cf.field = some field_id then
      match cf.value with
      | some v => if pyStrip v ≠ "" then some (pyStrip v) else findFieldValue field_id rest
      | none => findFieldValue field_id rest
    else findFieldValue field_id rest

/-- Read a custom field value from a document
(`CustomFieldResolver.get_field_value`): nothing if the field name is
undefined, absent on the document, or blank after stripping. -/
def get_field_value (field_name_to_id : List (String × Int))
    (document : Document) (field_name : String) : Option String :=
  match field_name_to_id.lookup field_name with
  | none => none
  | some field_id => findFieldValue field_id document.custom_fields

/-- Extract stamp types from a document's tags
(`_extract_stamp_types`): every tag whose lowercased name starts with
`stamp:` contributes its suffix, unless the suffix is empty or `error`. -/
def extract_stamp_types (document : Document) (tag_resolver : TagResolver) :
    List String :=
  document.tags.filterMap fun tag_id =>
    match tag_resolver.id_to_name.lookup tag_id with
    | some tag_name =>
      if "stamp:".toList.isPrefixOf (asciiLower tag_name).toList then
        let stamp_type := String.mk (tag_name.toList.drop 6)
        if stamp_type ≠ "" ∧ stamp_type ≠ "error" then some stamp_type
        else none
      else none
    | none => none

/-- Determine the date string for a stamp (`_resolve_stamp_date`):
configured custom field first; for `received` with fallback policy
`created`, the first ten characters of the created timestamp. -/
def resolve_stamp_date (stamp_type : String) (document : Document)
    (config : WorkerConfig) (field_name_to_id : List (String × Int)) :
    Option String :=
  let step1 : Option String :=
    match config.get_date_field_name stamp_type with
    | some field_name =>
      if field_name ≠ "" then
        match get_field_value field_name_to_id document field_name with
        | some value => if value ≠ "" then some value else none
        | none => none
      else none
    | none => none
  match step1 with
  | some value => some value
  | none =>
    if stamp_type = "received" ∧ config.received_date_fallback = "created" then
      match document.created with
      | some created =>
        if created ≠ "" then some (String.mk (created.toList.take 10)) else none
      | none => none
    else none

/-- Build one StampConfig per stamp type (`_build_stamp_configs`). -/
def build_stamp_configs (document : Document) (stamp_types : List String)
    (config : WorkerConfig) (field_name_to_id : List (String × Int)) :
    List StampConfig :=
  stamp_types.map fun stamp_type =>
    mkStampConfig (config.get_stamp_text stamp_type) document.id
      (resolve_stamp_date stamp_type document config field_name_to_id)
      (config.get_stamp_color stamp_type)

/-! ## worker.py orchestration, with an explicit client-operation record -/

/-- One API call issued against the Paperless store. -/
inductive ApiCall
  | download (doc_id : Int)
  | upload (doc_id : Int) (label : String)
  | createTag (tag_name : String)
  | updateTags (doc_id : Int) (tag_ids : List Int)
  | addNote (doc_id : Int) (note : String)
  deriving DecidableEq

/-- Whether a call is a document tag update. -/
def ApiCall.isUpdateTags : ApiCall → Bool
  | .updateTags _ _ => true
  | _ => false

/-- Whether a call is a note attachment. -/
def ApiCall.isAddNote : ApiCall → Bool
  | .addNote _ _ => true
  | _ => false

/-- The injectable external operations: the Paperless client plus the
pikepdf page reader and merger.  Each may fail with an exception kind. -/
structure ClientOps (PDF : Type) where
  download_document : Int → Except PError PDF
  get_page1_dimensions : PDF → Except PError (ℚ × ℚ)
  merge_stamp_overlay : PDF → List DrawnStamp → Except PError PDF
  upload_version : Int → PDF → String → Except PError Unit
  create_tag : String → Except PError Int
  update_document_tags : Int → List Int → Except PError Unit
  add_note : Int → String → Except PError Unit

/-- The message of the `NotImplementedError` raised by
`PaperlessClient.upload_version`. -/
def uploadVersionMessage : String :=
  "upload_version requires Paperless-ngx file versioning " ++
    "(PR #12061, not yet merged). See: " ++
    "https://github.com/paperless-ngx/paperless-ngx/pull/12061"

/-- The upload operation of the provided client
(`PaperlessClient.upload_version`): unconditionally raises
`NotImplementedError`. -/
def provided_upload_version (PDF : Type) :
    Int → PDF → String → Except PError Unit :=
  fun _ _ _ => .error (.notImplemented uploadVersionMessage)

/-- Return the tag id for a name, creating the tag upstream and caching
it if absent (`TagResolver.ensure_tag`).  A failed create propagates. -/
def ensure_tag {PDF : Type} (client : ClientOps PDF) (tag_resolver : TagResolver)
    (name : String) : Except PError (Int × TagResolver) × List ApiCall :=
  match tag_resolver.name_to_id.lookup name with
  | some tag_id => (.ok (tag_id, tag_resolver), [])
  | none =>
    match client.create_tag name with
    | .ok tag_id =>
      (.ok (tag_id,
        { name_to_id := (name, tag_id) :: tag_resolver.name_to_id,
          id_to_name := (tag_id, name) :: tag_resolver.id_to_name }),
        [.createTag name])
    | .error e => (.error e, [.createTag name])

/-- The per-type loop of `_swap_tags` over the working tag set (a Python
set, modelled as a duplicate-free list): discard the trigger id when
known, ensure and add the done id. -/
def swapLoop {PDF : Type} (client : ClientOps PDF) :
    List String → TagResolver → List Int →
    Except PError (List Int × TagResolver) × List ApiCall
  | [], tag_resolver, s => (.ok (s, tag_resolver), [])
  | stamp_type :: rest, tag_resolver, s =>
    let s1 := match tag_resolver.name_to_id.lookup ("stamp:" ++ stamp_type) with
      | some trigger_id => setDiscard s trigger_id
      | none => s
    match ensure_tag client tag_resolver ("stamped:" ++ stamp_type) with
    | (.ok (done_id, r2), calls) =>
      let next := swapLoop client rest r2 (setAdd s1 done_id)
      (next.1, calls ++ next.2)
    | (.error e, calls) => (.error e, calls)

/-- Remove `stamp:*` trigger tags and add `stamped:*` done tags, then
send the whole new set, sorted, in one update call (`_swap_tags`).  The
update call is unprotected in the source, so its failure propagates. -/
def swap_tags {PDF : Type} (client : ClientOps PDF) (document : Document)
    (stamp_types : List String) (tag_resolver : TagResolver) :
    Except PError TagResolver × List ApiCall :=
  match swapLoop client stamp_types tag_resolver (pySet document.tags) with
  | (.ok (s, r2), calls) =>
    let tag_ids := pySorted s
    match client.update_document_tags document.id tag_ids with
    | .ok _ => (.ok r2, calls ++ [.updateTags document.id tag_ids])
    | .error e => (.error e, calls ++ [.updateTags document.id tag_ids])
  | (.error e, calls) => (.error e, calls)

/-- Remove trigger tags, add the `stamp:error` tag, attach an error note
(`_handle_error`).  The update and note results are discarded — their
failures are logged and swallowed — but a failure creating the error tag
itself propagates (`ensure_tag` runs outside the try blocks). -/
def handle_error {PDF : Type} (client : ClientOps PDF) (document : Document)
    (stamp_types : List String) (error_message : String)
    (tag_resolver : TagResolver) : Except PError TagResolver × List ApiCall :=
  let s0 := pySet document.tags
  let s1 := stamp_types.foldl (fun s stamp_type =>
    match tag_resolver.name_to_id.lookup ("stamp:" ++ stamp_type) with
    | some trigger_id => setDiscard s trigger_id
    | none => s) s0
  match ensure_tag client tag_resolver "stamp:error" with
  | (.ok (error_tag_id, r2), calls) =>
    let s2 := setAdd s1 error_tag_id
    let tag_ids := pySorted s2
    let _ := client.update_document_tags document.id tag_ids
    let note := "[paperless-stamp] Stamping failed: " ++ error_message
    let _ := client.add_note document.id note
    (.ok r2, calls ++ [.updateTags document.id tag_ids, .addNote document.id note])
  | (.error e, calls) => (.error e, calls)

/-- Steps 1-6 of `process_document`: download, read page-1 dimensions,
build stamp configs, generate the overlay, merge, upload. -/
def pipelineCore {PDF : Type} (client : ClientOps PDF) (cosdeg sindeg : ℚ → ℚ)
    (document : Document) (config : WorkerConfig) (stamp_types : List String)
    (field_name_to_id : List (String × Int)) :
    Except PError PDF × List ApiCall :=
  match client.download_document document.id with
  | .error e => (.error e, [.download document.id])
  | .ok pdf_bytes =>
    match client.get_page1_dimensions pdf_bytes with
    | .error e => (.error e, [.download document.id])
    | .ok (page_width, page_height) =>
      let stamp_configs := build_stamp_configs document stamp_types config
        field_name_to_id
      match generate_stamp_overlay cosdeg sindeg page_width page_height
          stamp_configs with
      | .error e => (.error e, [.download document.id])
      | .ok overlay_pdf =>
        match client.merge_stamp_overlay pdf_bytes overlay_pdf with
        | .error e => (.error e, [.download document.id])
        | .ok stamped_pdf =>
          match client.upload_version document.id stamped_pdf "stamped" with
          | .error e =>
            (.error e, [.download document.id, .upload document.id "stamped"])
          | .ok _ =>
            (.ok stamped_pdf, [.download document.id, .upload document.id "stamped"])

/-- The whole guarded region of `process_document` (steps 1-7): the core
pipeline then the tag swap; the first raise wins. -/
def runAttempt {PDF : Type} (client : ClientOps PDF) (cosdeg sindeg : ℚ → ℚ)
    (document : Document) (config : WorkerConfig) (stamp_types : List String)
    (tag_resolver : TagResolver) (field_name_to_id : List (String × Int)) :
    Except PError TagResolver × List ApiCall :=
  match pipelineCore client cosdeg sindeg document config stamp_types
      field_name_to_id with
  | (.ok _, calls) =>
    let next := swap_tags client document stamp_types tag_resolver
    (next.1, calls ++ next.2)
  | (.error e, calls) => (.error e, calls)

/-- The document title with the source's fallback. -/
def docTitle (document : Document) : String :=
  document.title.getD ("Document " ++ toString document.id)

/-- One failed StampResult, as built in the except branch of
`process_document`. -/
def failedResult (document : Document) (config : WorkerConfig)
    (error_msg : String) (elapsed_ms : Int) (stamp_type : String) :
    StampResult :=
  { document_id := document.id
    document_title := docTitle document
    stamp_type := stamp_type
    stamp_text := config.get_stamp_text stamp_type
    stamp_date := none
    success := false
    error_message := some error_msg
    processing_ms := some elapsed_ms }

/-- One successful StampResult, as built on the success path of
`process_document`. -/
def successResult (document : Document) (config : WorkerConfig)
    (field_name_to_id : List (String × Int)) (elapsed_ms : Int)
    (stamp_type : String) : StampResult :=
  { document_id := document.id
    document_title := docTitle document
    stamp_type := stamp_type
    stamp_text := config.get_stamp_text stamp_type
    stamp_date := resolve_stamp_date stamp_type document config field_name_to_id
    success := true
    error_message := none
    processing_ms := some elapsed_ms }

/-- Full per-document pipeline (`process_document`): returns the results
(or the uncaught exception), the final resolver state and the trace of
API calls.  Any failure in the guarded region converts to the
error-marking transition via `handle_error`; elapsed wall time is the
external input `elapsed_ms`. -/
def process_document {PDF : Type} (client : ClientOps PDF)
    (cosdeg sindeg : ℚ → ℚ) (elapsed_ms : Int) (document : Document)
    (config : WorkerConfig) (tag_resolver : TagResolver)
    (field_name_to_id : List (String × Int)) :
    Except PError (List StampResult) × TagResolver × List ApiCall :=
  let stamp_types := extract_stamp_types document tag_resolver
  if stamp_types = [] then (.ok [], tag_resolver, [])
  else
    match runAttempt client cosdeg sindeg document config stamp_types
        tag_resolver field_name_to_id with
    | (.ok r2, calls) =>
      (.ok (stamp_types.map
        (successResult document config field_name_to_id elapsed_ms)),
        r2, calls)
    | (.error e, calls) =>
      let error_msg := e.message
      match handle_error client document stamp_types error_msg tag_resolver with
      | (.ok r2, hcalls) =>
        (.ok (stamp_types.map (failedResult document config error_msg elapsed_ms)),
          r2, calls ++ hcalls)
      | (.error e2, hcalls) => (.error e2, tag_resolver, calls ++ hcalls)

/-! ## Derived id sets used by the tag-transition statements -/

/-- The resolver's id for a type's trigger tag. -/
def triggerIdOf (tag_resolver : TagResolver) (stamp_type : String) : Option Int :=
  tag_resolver.name_to_id.lookup ("stamp:" ++ stamp_type)

/-- The id a type's done tag resolves or creates to. -/
def doneIdOf {PDF : Type} (client : ClientOps PDF) (tag_resolver : TagResolver)
    (stamp_type : String) : Option Int :=
  match tag_resolver.name_to_id.lookup ("stamped:" ++ stamp_type) with
  | some tag_id => some tag_id
  | none => (client.create_tag ("stamped:" ++ stamp_type)).toOption

/-- The id the shared error tag resolves or creates to. -/
def errorTagIdOf {PDF : Type} (client : ClientOps PDF)
    (tag_resolver : TagResolver) : Option Int :=
  match tag_resolver.name_to_id.lookup "stamp:error" with
  | some tag_id => some tag_id
  | none => (client.create_tag "stamp:error").toOption

/-- All trigger ids of a list of types known to the resolver. -/
def trigSet (tag_resolver : TagResolver) (stamp_types : List String) :
    Finset ℤ :=
  (stamp_types.filterMap (triggerIdOf tag_resolver)).toFinset

/-- All done ids of a list of types (resolved or created). -/
def doneSet {PDF : Type} (client : ClientOps PDF) (tag_resolver : TagResolver)
    (stamp_types : List String) : Finset ℤ :=
  (stamp_types.filterMap (doneIdOf client tag_resolver)).toFinset

/-! ## Claim-side reading used to refute C7 -/

/-- The spec claim's validity notion for hex colors: exactly six hex
digits after at most one optional leading hash mark.  (The code instead
strips every leading hash mark and accepts Python int-literal liberties
in each byte pair.) -/
def claimSixHexValid (s : String) : Bool :=
  let t := match s.toList with
    | '#' :: rest => rest
    | l => l
  t.length = 6 && t.all fun c => (hexDigitVal? c).isSome

/-! ## Concrete fixtures used by witnesses and counterexamples -/

/-- A resolver snapshot holding the sample tags of the repository's test
suite. -/
def egResolver : TagResolver :=
  { name_to_id := [("stamp:paid", 1), ("stamp:received", 2), ("stamped:paid", 3),
      ("stamp:error", 4), ("invoice", 5)],
    id_to_name := [(1, "stamp:paid"), (2, "stamp:received"), (3, "stamped:paid"),
      (4, "stamp:error"), (5, "invoice")] }

/-- A resolver snapshot without the `stamp:error` tag. -/
def egResolverNoError : TagResolver :=
  { name_to_id := [("stamp:paid", 1), ("invoice", 5)],
    id_to_name := [(1, "stamp:paid"), (5, "invoice")] }

/-- Sample custom-field definitions. -/
def egFields : List (String × Int) := [("Paid Date", 10), ("Received Date", 11)]

/-- A configuration with all defaults. -/
def egConfig : WorkerConfig := {}

/-- A sample document tagged `stamp:paid` and `invoice`, with a Paid
Date custom field value. -/
def egDoc : Document :=
  { id := 42, title := some "Invoice 1", tags := [1, 5],
    custom_fields := [{ field := some 10, value := some "2024-03-15" }] }

/-- A client whose operations all succeed. -/
def egClientOk : ClientOps Nat :=
  { download_document := fun _ => .ok 0
    get_page1_dimensions := fun _ => .ok (600, 800)
    merge_stamp_overlay := fun _ _ => .ok 1
    upload_version := fun _ _ _ => .ok ()
    create_tag := fun _ => .ok 99
    update_document_tags := fun _ _ => .ok ()
    add_note := fun _ _ => .ok () }

/-- The working client with the provided (unimplemented) upload. -/
def egClientUploadNI : ClientOps Nat :=
  { egClientOk with upload_version := provided_upload_version Nat }

/-- A client whose download fails with a connection error. -/
def egClientDown : ClientOps Nat :=
  { egClientOk with
    download_document := fun _ => .error (.paperlessConnection "down") }

/-- A client whose download fails and whose tag creation, tag update and
note attachment all fail too. -/
def egClientBroken : ClientOps Nat :=
  { egClientDown with
    create_tag := fun _ => .error (.paperlessAPI 500 "boom")
    update_document_tags := fun _ _ => .error (.paperlessAPI 500 "boom")
    add_note := fun _ _ => .error (.paperlessAPI 500 "boom") }

/-- A stand-in for the cosine-of-degrees evaluation in witnesses. -/
def cosOne : ℚ → ℚ := fun _ => 1

/-- A stand-in for the sine-of-degrees evaluation in witnesses. -/
def sinZero : ℚ → ℚ := fun _ => 0

/-- A sample stamp with the default color. -/
def egStamp : StampConfig := mkStampConfig "PAID" 42 none "#003399"

/-- A configuration with a date field configured for `paid`. -/
def egConfigPaid : WorkerConfig := { date_fields := [("paid", "Paid Date")] }

/-- A document with a created timestamp and no custom field values. -/
def egDocCreated : Document :=
  { id := 7, tags := [2], created := some "2024-01-10T12:00:00Z" }

/-! ## Geometry lemmas -/

/-- The fitted font size never falls below the 8-point minimum. -/
theorem fit_font_size_ge (text : String) (max_width padding : ℚ) :
    8 ≤ fit_font_size text max_width padding := by
  unfold fit_font_size
  dsimp only
  split
  · exact le_refl 8
  · exact le_max_right _ 8

/-- Every stamp layout has positive height. -/
theorem layout_height_pos (stamp : StampConfig) (stamp_width : ℚ) :
    0 < (calculate_stamp_layout stamp stamp_width).height := by
  have h8 := fit_font_size_ge stamp.text stamp_width (stamp_width * (1 / 4))
  unfold calculate_stamp_layout
  dsimp only
  split
  · have hmm : (0 : ℚ) < mmUnit := by norm_num [mmUnit]
    nlinarith
  · nlinarith

/-- Projected half-heights are nonnegative for every trig evaluation. -/
theorem projected_half_height_nonneg (cosdeg sindeg : ℚ → ℚ)
    (stamp_width stamp_height tilt_degrees : ℚ) :
    0 ≤ projected_half_height cosdeg sindeg stamp_width stamp_height
      tilt_degrees := by
  unfold projected_half_height
  positivity

/-- The stacking loop keeps the stamps in input order. -/
theorem placeStamps_map_stamp (cosdeg sindeg : ℚ → ℚ) (tiltOf : Int → ℚ)
    (stamp_center_x stamp_width : ℚ) :
    ∀ (stamps : List StampConfig) (top : ℚ),
      (placeStamps cosdeg sindeg tiltOf stamp_center_x stamp_width top
        stamps).map StampPlacement.stamp = stamps := by
  intro stamps
  induction stamps with
  | nil => intro top; rfl
  | cons s rest ih => intro top; simp [placeStamps, ih]

/-- Every placement of the stacking loop has its projected top edge at
or below the running top-edge bound. -/
theorem placeStamps_projTop_le (cosdeg sindeg : ℚ → ℚ) (tiltOf : Int → ℚ)
    (stamp_center_x stamp_width : ℚ) :
    ∀ (stamps : List StampConfig) (top : ℚ),
      ∀ p ∈ placeStamps cosdeg sindeg tiltOf stamp_center_x stamp_width top
        stamps, projTop cosdeg sindeg p ≤ top := by
  intro stamps
  induction stamps with
  | nil => intro top p hp; simp [placeStamps] at hp
  | cons s rest ih =>
    intro top p hp
    simp only [placeStamps, List.mem_cons] at hp
    rcases hp with rfl | hp
    · unfold projTop
      dsimp only
      ring_nf
      exact le_refl _
    · have h := ih _ p hp
      have hphh := projected_half_height_nonneg cosdeg sindeg
        (calculate_stamp_layout s stamp_width).width
        (calculate_stamp_layout s stamp_width).height (tiltOf s.doc_id)
      have hh := layout_height_pos s stamp_width
      have hsp : (0 : ℚ) < stackSpacing - 1 := by norm_num [stackSpacing]
      nlinarith

/-- The head placement of the stacking loop has its projected top edge
exactly at the running bound. -/
theorem placeStamps_head_projTop (cosdeg sindeg : ℚ → ℚ) (tiltOf : Int → ℚ)
    (stamp_center_x stamp_width : ℚ) (stamps : List StampConfig) (top : ℚ) :
    ∀ p ∈ (placeStamps cosdeg sindeg tiltOf stamp_center_x stamp_width top
      stamps).head?, projTop cosdeg sindeg p = top := by
  cases stamps with
  | nil => intro p hp; simp [placeStamps] at hp
  | cons s rest =>
    intro p hp
    simp only [placeStamps, List.head?_cons, Option.mem_def,
      Option.some.injEq] at hp
    subst hp
    unfold projTop
    dsimp only
    ring

/-- Consecutive placements satisfy the exact stacking equation: the next
projected top edge is the previous projected bottom edge minus the
proportional stack gap. -/
theorem placeStamps_chain (cosdeg sindeg : ℚ → ℚ) (tiltOf : Int → ℚ)
    (stamp_center_x stamp_width : ℚ) :
    ∀ (stamps : List StampConfig) (top : ℚ),
      List.Chain' (fun a b => projTop cosdeg sindeg b =
          projBottom cosdeg sindeg a - a.layout.height * (stackSpacing - 1))
        (placeStamps cosdeg sindeg tiltOf stamp_center_x stamp_width top
          stamps) := by
  intro stamps
  induction stamps with
  | nil => intro top; simp [placeStamps]
  | cons s rest ih =>
    intro top
    rw [placeStamps, List.chain'_cons']
    refine ⟨?_, ih _⟩
    intro p hp
    have := placeStamps_head_projTop cosdeg sindeg tiltOf stamp_center_x
      stamp_width rest _ p hp
    rw [this]
    unfold projBottom
    dsimp only
    try ring

/-- Distinct placements have disjoint projected vertical extents: every
later stamp's projected top edge lies strictly below every earlier
stamp's projected bottom edge. -/
theorem placeStamps_pairwise (cosdeg sindeg : ℚ → ℚ) (tiltOf : Int → ℚ)
    (stamp_center_x stamp_width : ℚ) :
    ∀ (stamps : List StampConfig) (top : ℚ),
      List.Pairwise (fun a b => projTop cosdeg sindeg b <
          projBottom cosdeg sindeg a)
        (placeStamps cosdeg sindeg tiltOf stamp_center_x stamp_width top
          stamps) := by
  intro stamps
  induction stamps with
  | nil => intro top; simp [placeStamps]
  | cons s rest ih =>
    intro top
    rw [placeStamps, List.pairwise_cons]
    refine ⟨?_, ih _⟩
    intro p hp
    have hle := placeStamps_projTop_le cosdeg sindeg tiltOf stamp_center_x
      stamp_width rest _ p hp
    have hh := layout_height_pos s stamp_width
    have hsp : (0 : ℚ) < stackSpacing - 1 := by norm_num [stackSpacing]
    unfold projBottom
    dsimp only
    nlinarith

/-- C2: for every positive page size and non-empty stamp list (and for
every trig evaluation, tilt assignment and stamp width), the computed
placements keep the input order; each consecutive pair satisfies
top(k+1) = bottom(k) − height(k) × (stackSpacing − 1), edges projected
on the page's vertical axis; and projected vertical extents of distinct
stamps never overlap. -/
theorem claim2_stacking_geometry (cosdeg sindeg : ℚ → ℚ) (tiltOf : Int → ℚ)
    (page_width page_height stamp_width : ℚ) (stamps : List StampConfig)
    (hw : 0 < page_width) (hh : 0 < page_height) (hne : stamps ≠ []) :
    (calculate_stamp_placements cosdeg sindeg tiltOf page_width page_height
      stamps stamp_width).map StampPlacement.stamp = stamps ∧
    List.Chain' (fun a b => projTop cosdeg sindeg b =
        projBottom cosdeg sindeg a - a.layout.height * (stackSpacing - 1))
      (calculate_stamp_placements cosdeg sindeg tiltOf page_width page_height
        stamps stamp_width) ∧
    List.Pairwise (fun a b => projTop cosdeg sindeg b <
        projBottom cosdeg sindeg a)
      (calculate_stamp_placements cosdeg sindeg tiltOf page_width page_height
        stamps stamp_width) := by
  refine ⟨placeStamps_map_stamp cosdeg sindeg tiltOf _ _ stamps _,
    placeStamps_chain cosdeg sindeg tiltOf _ _ stamps _,
    placeStamps_pairwise cosdeg sindeg tiltOf _ _ stamps _⟩

/-- Witness for C2 at a concrete page and a concrete two-stamp list. -/
theorem claim2_stacking_geometry_witness :
    (0 : ℚ) < 600 ∧ (0 : ℚ) < 800 ∧
      ([egStamp, mkStampConfig "RECEIVED" 42 (some "2024-01-10") "#003399"] ≠
        ([] : List StampConfig)) ∧
    ((calculate_stamp_placements cosOne sinZero compute_tilt 600 800
      [egStamp, mkStampConfig "RECEIVED" 42 (some "2024-01-10") "#003399"]
      120).map StampPlacement.stamp =
      [egStamp, mkStampConfig "RECEIVED" 42 (some "2024-01-10") "#003399"] ∧
    List.Chain' (fun a b => projTop cosOne sinZero b =
        projBottom cosOne sinZero a - a.layout.height * (stackSpacing - 1))
      (calculate_stamp_placements cosOne sinZero compute_tilt 600 800
        [egStamp, mkStampConfig "RECEIVED" 42 (some "2024-01-10") "#003399"]
        120) ∧
    List.Pairwise (fun a b => projTop cosOne sinZero b <
        projBottom cosOne sinZero a)
      (calculate_stamp_placements cosOne sinZero compute_tilt 600 800
        [egStamp, mkStampConfig "RECEIVED" 42 (some "2024-01-10") "#003399"]
        120)) :=
  ⟨by norm_num, by norm_num, by decide,
    claim2_stacking_geometry cosOne sinZero compute_tilt 600 800 120 _
      (by norm_num) (by norm_num) (by decide)⟩

/-! ## Hex parsing and digest lemmas -/

/-- Characters accepted as hex digits have ASCII codes in the three
digit/letter ranges. -/
theorem hexDigitVal_isSome_ranges {c : Char}
    (h : (hexDigitVal? c).isSome) :
    (48 ≤ c.toNat ∧ c.toNat ≤ 57) ∨ (97 ≤ c.toNat ∧ c.toNat ≤ 102) ∨
      (65 ≤ c.toNat ∧ c.toNat ≤ 70) := by
  unfold hexDigitVal? at h
  dsimp only at h
  split at h
  · left; assumption
  · split at h
    · right; left; assumption
    · split at h
      · right; right; assumption
      · simp at h

/-- Hex digit values are below 16. -/
theorem hexDigitVal_getD_lt (c : Char) : (hexDigitVal? c).getD 0 < 16 := by
  unfold hexDigitVal?
  dsimp only
  repeat' split
  all_goals simp only [Option.getD_some, Option.getD_none]
  all_goals omega

/-- A hex digit is not whitespace, a sign, an underscore or an `x`. -/
theorem hexDigit_not_special {c : Char} (h : (hexDigitVal? c).isSome) :
    isPySpace c = false ∧ c ≠ '+' ∧ c ≠ '-' ∧ c ≠ '_' ∧ c ≠ 'x' ∧
      c ≠ 'X' := by
  have hr := hexDigitVal_isSome_ranges h
  refine ⟨?_, ?_, ?_, ?_, ?_, ?_⟩
  · simp only [isPySpace, Bool.or_eq_false_iff, decide_eq_false_iff_not]
    omega
  · intro heq; subst heq; exact absurd hr (by decide)
  · intro heq; subst heq; exact absurd hr (by decide)
  · intro heq; subst heq; exact absurd hr (by decide)
  · intro heq; subst heq; exact absurd hr (by decide)
  · intro heq; subst heq; exact absurd hr (by decide)

/-- Whitespace stripping is the identity on all-hex character runs. -/
theorem dropWhile_pySpace_of_hex {cs : List Char}
    (h : ∀ c ∈ cs, (hexDigitVal? c).isSome) :
    cs.dropWhile isPySpace = cs := by
  cases cs with
  | nil => rfl
  | cons c rest =>
    have hc := (hexDigit_not_special (h c (by simp))).1
    simp [List.dropWhile, hc]

/-- Python strip is the identity on all-hex character runs. -/
theorem pyStripChars_of_hex {cs : List Char}
    (h : ∀ c ∈ cs, (hexDigitVal? c).isSome) : pyStripChars cs = cs := by
  unfold pyStripChars
  rw [dropWhile_pySpace_of_hex h,
    dropWhile_pySpace_of_hex (fun c hc => h c (List.mem_reverse.mp hc)),
    List.reverse_reverse]

/-- The 0x-prefix strip is the identity on all-hex character runs. -/
theorem strip0x_of_hex {cs : List Char}
    (h : ∀ c ∈ cs, (hexDigitVal? c).isSome) : strip0x cs = cs := by
  match cs with
  | [] => rfl
  | [c] => rfl
  | c1 :: c2 :: rest =>
    have h2 := hexDigit_not_special (h c2 (by simp))
    rw [strip0x.eq_def]
    dsimp only
    rw [if_neg]
    rintro ⟨-, hx | hx⟩
    · exact h2.2.2.2.2.1 hx
    · exact h2.2.2.2.2.2 hx

/-- Digit accumulation succeeds on all-hex character runs and computes
the base-16 fold. -/
theorem parseHexDigits_of_hex :
    ∀ (cs : List Char) (acc : Nat),
      (∀ c ∈ cs, (hexDigitVal? c).isSome) →
      parseHexDigits acc cs =
        some (cs.foldl (fun a c => 16 * a + (hexDigitVal? c).getD 0) acc) := by
  intro cs
  induction cs with
  | nil => intro acc _; rfl
  | cons c rest ih =>
    intro acc h
    have hc := hexDigit_not_special (h c (by simp))
    obtain ⟨v, hv⟩ := Option.isSome_iff_exists.mp (h c (by simp))
    rw [parseHexDigits.eq_def]
    dsimp only
    rw [if_neg hc.2.2.2.1]
    simp only [hv]
    rw [ih _ (fun c' hc' => h c' (by simp [hc']))]
    simp [hv]

/-- Parsing an all-hex run yields its base-16 value. -/
theorem parseHexSeq_of_hex {cs : List Char} (hne : cs ≠ [])
    (h : ∀ c ∈ cs, (hexDigitVal? c).isSome) :
    parseHexSeq cs = some (hexListVal cs) := by
  match cs, hne with
  | c :: rest, _ =>
    obtain ⟨v, hv⟩ := Option.isSome_iff_exists.mp (h c (by simp))
    rw [parseHexSeq]
    simp only [hv]
    rw [parseHexDigits_of_hex rest v (fun c' hc' => h c' (by simp [hc']))]
    unfold hexListVal
    simp [hv]

/-- Python int(_, 16) on an all-hex string yields its base-16 value. -/
theorem pyIntHex_of_hex {cs : List Char} (hne : cs ≠ [])
    (h : ∀ c ∈ cs, (hexDigitVal? c).isSome) :
    pyIntHex? (String.mk cs) = some ((hexListVal cs : Nat) : Int) := by
  cases cs with
  | nil => exact absurd rfl hne
  | cons c rest =>
    have hc := hexDigit_not_special (h c (by simp))
    have htl : (String.mk (c :: rest)).toList = c :: rest := rfl
    rw [pyIntHex?, htl, pyStripChars_of_hex h]
    dsimp only
    rw [if_neg hc.2.1, if_neg hc.2.2.1, strip0x_of_hex h,
      parseHexSeq_of_hex hne h]
    rfl

/-- The base-16 fold is bounded by the corresponding power of 16. -/
theorem hexListVal_foldl_lt :
    ∀ (cs : List Char) (acc : Nat),
      cs.foldl (fun a c => 16 * a + (hexDigitVal? c).getD 0) acc <
        (acc + 1) * 16 ^ cs.length := by
  intro cs
  induction cs with
  | nil => intro acc; simp
  | cons c rest ih =>
    intro acc
    have hg := hexDigitVal_getD_lt c
    have h1 := ih (16 * acc + (hexDigitVal? c).getD 0)
    simp only [List.foldl_cons, List.length_cons]
    have h2 : (16 * acc + (hexDigitVal? c).getD 0 + 1) * 16 ^ rest.length ≤
        (acc + 1) * 16 ^ (rest.length + 1) := by
      have hle : 16 * acc + (hexDigitVal? c).getD 0 + 1 ≤ (acc + 1) * 16 := by
        omega
      calc (16 * acc + (hexDigitVal? c).getD 0 + 1) * 16 ^ rest.length ≤
          (acc + 1) * 16 * 16 ^ rest.length :=
            Nat.mul_le_mul_right _ hle
        _ = (acc + 1) * 16 ^ (rest.length + 1) := by rw [pow_succ]; ring
    exact lt_of_lt_of_le h1 h2

/-- The value of an all-hex run is below 16 to its length. -/
theorem hexListVal_lt (cs : List Char) : hexListVal cs < 16 ^ cs.length := by
  have := hexListVal_foldl_lt cs 0
  simpa [hexListVal] using this

/-- All sixteen hex digit characters parse as hex digits. -/
theorem hexDigitChar_isSome : ∀ k < 16, (hexDigitVal? (hexDigitChar k)).isSome := by
  decide

/-- Every character of a hex digest is a hex digit. -/
theorem sha256hexChars_all_hex (s : String) :
    ∀ c ∈ sha256hexChars s, (hexDigitVal? c).isSome := by
  intro c hc
  unfold sha256hexChars at hc
  simp only [List.mem_flatMap] at hc
  obtain ⟨w, -, hw⟩ := hc
  unfold natToHex8 at hw
  simp only [List.mem_map, List.mem_range] at hw
  obtain ⟨i, -, rfl⟩ := hw
  exact hexDigitChar_isSome _ (Nat.mod_lt _ (by norm_num))

/-- One compression round preserves the register count. -/
theorem shaRound_length (st : List Nat) (kw : Nat × Nat) :
    (shaRound st kw).length = st.length := by
  unfold shaRound
  split
  · simp_all
  · rfl

/-- Folding compression rounds preserves the register count. -/
theorem foldl_shaRound_length :
    ∀ (l : List (Nat × Nat)) (st : List Nat),
      (l.foldl shaRound st).length = st.length := by
  intro l
  induction l with
  | nil => intro st; rfl
  | cons kw rest ih => intro st; rw [List.foldl_cons, ih, shaRound_length]

/-- Chunk compression preserves the state length. -/
theorem compress_length (st chunk : List Nat) :
    (compress st chunk).length = st.length := by
  unfold compress
  simp [List.length_zip, foldl_shaRound_length]

/-- The SHA-256 state always has eight words. -/
theorem sha256words_length (msg : List Nat) :
    (sha256words msg).length = 8 := by
  unfold sha256words
  have haux : ∀ (cs : List (List Nat)) (st : List Nat),
      (cs.foldl compress st).length = st.length := by
    intro cs
    induction cs with
    | nil => intro st; rfl
    | cons chunk rest ih =>
      intro st; rw [List.foldl_cons, ih, compress_length]
  rw [haux]
  rfl

/-- Each word prints as eight hex characters. -/
theorem natToHex8_length (n : Nat) : (natToHex8 n).length = 8 := by
  simp [natToHex8]

/-- The digest printer emits eight characters per word. -/
theorem flatMap_natToHex8_length :
    ∀ ws : List Nat, (ws.flatMap natToHex8).length = 8 * ws.length := by
  intro ws
  induction ws with
  | nil => rfl
  | cons w rest ih =>
    simp only [List.flatMap_cons, List.length_append, natToHex8_length, ih,
      List.length_cons]
    ring

/-- A hex digest has 64 characters. -/
theorem sha256hexChars_length (s : String) :
    (sha256hexChars s).length = 64 := by
  unfold sha256hexChars
  rw [flatMap_natToHex8_length, sha256words_length]

/-- The magnitude source of the tilt is a 32-bit value. -/
theorem tiltMagnitudeSource_spec (doc_id : Int) :
    0 ≤ tiltMagnitudeSource doc_id ∧
      tiltMagnitudeSource doc_id ≤ 4294967295 := by
  unfold tiltMagnitudeSource
  set slice := ((sha256hexChars (toString doc_id)).drop 8).take 8 with hs
  have hlen : slice.length = 8 := by
    rw [hs]
    simp [List.length_take, List.length_drop, sha256hexChars_length]
  have hhex : ∀ c ∈ slice, (hexDigitVal? c).isSome := by
    intro c hc
    apply sha256hexChars_all_hex
    rw [hs] at hc
    exact List.mem_of_mem_drop (List.mem_of_mem_take hc)
  have hne : slice ≠ [] := by
    intro habs
    rw [habs] at hlen
    simp at hlen
  rw [pyIntHex_of_hex hne hhex]
  simp only [Option.getD_some]
  have hlt := hexListVal_lt slice
  rw [hlen] at hlt
  constructor
  · exact Int.ofNat_nonneg _
  · omega

/-! ## C6 and C5: the tilt derivation -/

/-- C6: the tilt is a pure function of the document id — two calls agree
definitionally — and its absolute value always lies in [1, 3] degrees. -/
theorem claim6_tilt_deterministic_bounded (doc_id : Int) :
    compute_tilt doc_id = compute_tilt doc_id ∧
    1 ≤ |compute_tilt doc_id| ∧ |compute_tilt doc_id| ≤ 3 := by
  refine ⟨rfl, ?_⟩
  obtain ⟨h0, h1⟩ := tiltMagnitudeSource_spec doc_id
  have hq0 : (0 : ℚ) ≤ (tiltMagnitudeSource doc_id : ℚ) := by exact_mod_cast h0
  have hq1 : (tiltMagnitudeSource doc_id : ℚ) ≤ 4294967295 := by
    exact_mod_cast h1
  have hd : ((tiltMagnitudeSource doc_id : ℚ)) / 4294967295 ≤ 1 := by
    rw [div_le_one (by norm_num)]
    exact hq1
  have hd0 : (0 : ℚ) ≤ ((tiltMagnitudeSource doc_id : ℚ)) / 4294967295 := by
    positivity
  unfold compute_tilt
  dsimp only
  split
  · have heq : (-1 : ℚ) *
        (1 + (tiltMagnitudeSource doc_id : ℚ) / 4294967295 * 2) =
        -(1 + (tiltMagnitudeSource doc_id : ℚ) / 4294967295 * 2) := by ring
    rw [heq, abs_neg, abs_of_nonneg (by linarith)]
    constructor <;> linarith
  · rw [one_mul, abs_of_nonneg (by linarith)]
    constructor <;> linarith

/-- C5 (amended): the tilt is sign times (1 plus a magnitude), where the
sign is chosen by the parity of the first hash-derived integer and the
magnitude — the second hash-derived 32-bit integer scaled uniformly —
lies in [0, 2], giving the [1, 3] degree range. -/
theorem claim5_tilt_derivation_amended (doc_id : Int) :
    ∃ m : ℚ, 0 ≤ m ∧ m ≤ 2 ∧
      m = (tiltMagnitudeSource doc_id : ℚ) / 4294967295 * 2 ∧
      compute_tilt doc_id =
        (if tiltSignSource doc_id % 2 = 1 then (-1 : ℚ) else 1) * (1 + m) := by
  obtain ⟨h0, h1⟩ := tiltMagnitudeSource_spec doc_id
  have hq0 : (0 : ℚ) ≤ (tiltMagnitudeSource doc_id : ℚ) := by exact_mod_cast h0
  have hq1 : (tiltMagnitudeSource doc_id : ℚ) ≤ 4294967295 := by
    exact_mod_cast h1
  have hd : ((tiltMagnitudeSource doc_id : ℚ)) / 4294967295 ≤ 1 := by
    rw [div_le_one (by norm_num)]
    exact hq1
  refine ⟨(tiltMagnitudeSource doc_id : ℚ) / 4294967295 * 2, by positivity,
    by linarith, rfl, rfl⟩

/-- The first hash-derived integer for document id 2. -/
theorem tiltSignSource_two : tiltSignSource 2 = 3564330554 := by
  rw [tiltSignSource, show (toString (2 : Int)) = "2" from by decide,
    show (sha256hexChars "2").take 8 = "d4735e3a".toList from by decide]
  decide

/-- The second hash-derived integer for document id 2. -/
theorem tiltMagnitudeSource_two : tiltMagnitudeSource 2 = 643700462 := by
  rw [tiltMagnitudeSource, show (toString (2 : Int)) = "2" from by decide,
    show ((sha256hexChars "2").drop 8).take 8 = "265e16ee".toList from by
      decide]
  decide

/-- C5 counterexample: for document id 2 the tilt is about 1.2997
degrees, so it is not sign × (1 + m) for any magnitude m in [1, 2] — the
claimed magnitude range would force |tilt| into [2, 3]. -/
theorem claim5_counterexample :
    ¬ ∃ s m : ℚ, (s = 1 ∨ s = -1) ∧ 1 ≤ m ∧ m ≤ 2 ∧
      compute_tilt 2 = s * (1 + m) := by
  have hval : compute_tilt 2 = 5582368219 / 4294967295 := by
    unfold compute_tilt
    rw [tiltSignSource_two, tiltMagnitudeSource_two]
    norm_num
  rintro ⟨s, m, hs, h1, h2, heq⟩
  rw [hval] at heq
  have hlt : (5582368219 : ℚ) / 4294967295 < 2 := by norm_num
  have hpos : (0 : ℚ) < 5582368219 / 4294967295 := by norm_num
  rcases hs with rfl | rfl
  · rw [one_mul] at heq
    linarith
  · rw [neg_one_mul] at heq
    linarith

/-! ## C7: hex color conversion -/

/-- The channel conversion forwards parse errors unchanged. -/
theorem hex_to_rgb_of_ints_error {s : String} {e : PError}
    (h : hexToRgbInts s = .error e) : hex_to_rgb s = .error e := by
  unfold hex_to_rgb
  rw [h]

/-- The channel conversion succeeds exactly when the parse does. -/
theorem hex_to_rgb_isOk (s : String) :
    (hex_to_rgb s).isOk = (hexToRgbInts s).isOk := by
  unfold hex_to_rgb
  cases h : hexToRgbInts s with
  | error e => rfl
  | ok rgb => obtain ⟨r, g, b⟩ := rgb; rfl

/-- Inputs that do not have exactly six characters after stripping
leading hash marks are rejected. -/
theorem hexToRgbInts_length_ne {s : String}
    (h : (s.toList.dropWhile (· = '#')).length ≠ 6) :
    hexToRgbInts s =
      .error (.stampGeneration ("Invalid hex color: " ++ s)) := by
  unfold hexToRgbInts
  dsimp only
  rw [if_pos h]

/-- Six hex digits after stripping leading hash marks parse to the three
byte values. -/
theorem hexToRgbInts_of_hex {s : String}
    (hlen : (s.toList.dropWhile (· = '#')).length = 6)
    (hhex : ∀ c ∈ s.toList.dropWhile (· = '#'), (hexDigitVal? c).isSome) :
    hexToRgbInts s = .ok
      ((hexListVal ((s.toList.dropWhile (· = '#')).take 2) : Nat),
       (hexListVal (((s.toList.dropWhile (· = '#')).drop 2).take 2) : Nat),
       (hexListVal ((s.toList.dropWhile (· = '#')).drop 4) : Nat)) := by
  unfold hexToRgbInts
  dsimp only
  rw [if_neg (fun hne => hne hlen)]
  set h := s.toList.dropWhile (· = '#') with hh
  have h1ne : h.take 2 ≠ [] := by
    intro habs
    have := congrArg List.length habs
    simp [List.length_take, hlen] at this
  have h2ne : (h.drop 2).take 2 ≠ [] := by
    intro habs
    have := congrArg List.length habs
    simp [List.length_take, List.length_drop, hlen] at this
  have h3ne : h.drop 4 ≠ [] := by
    intro habs
    have := congrArg List.length habs
    simp [List.length_drop, hlen] at this
  rw [pyIntHex_of_hex h1ne (fun c hc => hhex c (List.mem_of_mem_take hc)),
    pyIntHex_of_hex h2ne
      (fun c hc => hhex c (List.mem_of_mem_drop (List.mem_of_mem_take hc))),
    pyIntHex_of_hex h3ne (fun c hc => hhex c (List.mem_of_mem_drop hc))]

/-- C7 counterexample: `##003399` and `+12345` are not six hex digits
after one optional leading hash mark, yet the conversion accepts both —
the code strips every leading hash mark and inherits Python int-literal
liberties inside each byte pair. -/
theorem claim7_counterexample :
    claimSixHexValid "##003399" = false ∧
    claimSixHexValid "+12345" = false ∧
    hex_to_rgb "##003399" = .ok (0, 1 / 5, 3 / 5) ∧
    (hex_to_rgb "+12345").isOk = true := by
  refine ⟨by decide, by decide, ?_, ?_⟩
  · have h : hexToRgbInts "##003399" = .ok (0, 51, 153) := by decide
    unfold hex_to_rgb
    rw [h]
    norm_num
  · rw [hex_to_rgb_isOk]
    decide

/-- C7 (amended): conversion fails for every input whose remainder
after stripping all leading hash marks is not six characters long;
every input that is six hex digits after that stripping maps to the
three byte values divided by 255; `#003399` maps to (0.0, 0.2, 0.6),
and `#FFF` and `#GGGGGG` fail as invalid-color errors. -/
theorem claim7_hex_color_amended :
    (∀ s : String, (s.toList.dropWhile (· = '#')).length ≠ 6 →
      hex_to_rgb s =
        .error (.stampGeneration ("Invalid hex color: " ++ s))) ∧
    (∀ s : String, (s.toList.dropWhile (· = '#')).length = 6 →
      (∀ c ∈ s.toList.dropWhile (· = '#'), (hexDigitVal? c).isSome) →
      hex_to_rgb s = .ok
        ((hexListVal ((s.toList.dropWhile (· = '#')).take 2) : ℚ) / 255,
         (hexListVal (((s.toList.dropWhile (· = '#')).drop 2).take 2) : ℚ) /
           255,
         (hexListVal ((s.toList.dropWhile (· = '#')).drop 4) : ℚ) / 255)) ∧
    hex_to_rgb "#003399" = .ok (0, 1 / 5, 3 / 5) ∧
    (hex_to_rgb "#FFF").isOk = false ∧
    hex_to_rgb "#GGGGGG" =
      .error (.stampGeneration "Invalid hex color: #GGGGGG") := by
  refine ⟨?_, ?_, ?_, ?_, ?_⟩
  · intro s h
    exact hex_to_rgb_of_ints_error (hexToRgbInts_length_ne h)
  · intro s hlen hhex
    unfold hex_to_rgb
    rw [hexToRgbInts_of_hex hlen hhex]
    push_cast
    rfl
  · have h : hexToRgbInts "#003399" = .ok (0, 51, 153) := by decide
    unfold hex_to_rgb
    rw [h]
    norm_num
  · rw [hex_to_rgb_isOk]
    decide
  · exact hex_to_rgb_of_ints_error (by decide)

/-- Witness for C7's amended statement at concrete inputs. -/
theorem claim7_witness :
    ("#0a0b9f".toList.dropWhile (· = '#')).length = 6 ∧
    hex_to_rgb "#0a0b9f" = .ok
      ((hexListVal (("#0a0b9f".toList.dropWhile (· = '#')).take 2) : ℚ) / 255,
       (hexListVal ((("#0a0b9f".toList.dropWhile (· = '#')).drop 2).take 2) :
         ℚ) / 255,
       (hexListVal (("#0a0b9f".toList.dropWhile (· = '#')).drop 4) : ℚ) /
         255) ∧
    hex_to_rgb "ff" = .error (.stampGeneration "Invalid hex color: ff") :=
  ⟨by decide, claim7_hex_color_amended.2.1 "#0a0b9f" (by decide) (by decide),
    claim7_hex_color_amended.1 "ff" (by decide)⟩

/-! ## C8: overlay generation validation -/

/-- Drawing the whole placement list succeeds when every stamp's color
resolves. -/
theorem mapM_draw_stamp_isOk :
    ∀ ps : List StampPlacement,
      (∀ p ∈ ps, (hex_to_rgb p.stamp.color).isOk = true) →
      (ps.mapM draw_stamp).isOk = true := by
  intro ps
  induction ps with
  | nil => intro _; rfl
  | cons p rest ih =>
    intro h
    cases hh : hex_to_rgb p.stamp.color with
    | error e =>
      have := h p (by simp)
      rw [hh] at this
      exact absurd this (by simp [Except.isOk, Except.toBool])
    | ok rgb =>
      have hdraw : draw_stamp p = .ok { placement := p, color_rgb := rgb } := by
        unfold draw_stamp
        rw [hh]
      have hrest := ih (fun q hq => h q (by simp [hq]))
      cases hr : rest.mapM draw_stamp with
      | error e =>
        rw [hr] at hrest
        exact absurd hrest (by simp [Except.isOk, Except.toBool])
      | ok l =>
        rw [List.mapM_cons, hdraw, hr]
        rfl

/-- C8: overlay generation fails with the "at least one stamp" error on
an empty stamp list, fails with the invalid-dimension error when a page
dimension is nonpositive, and succeeds otherwise provided each stamp's
color is valid. -/
theorem claim8_overlay_validation (cosdeg sindeg : ℚ → ℚ)
    (page_width page_height : ℚ) (stamps : List StampConfig) :
    (stamps = [] →
      generate_stamp_overlay cosdeg sindeg page_width page_height stamps =
        .error (.stampGeneration "At least one stamp is required")) ∧
    (stamps ≠ [] → (page_width ≤ 0 ∨ page_height ≤ 0) →
      generate_stamp_overlay cosdeg sindeg page_width page_height stamps =
        .error (.stampGeneration
          (invalidDimensionsMessage page_width page_height))) ∧
    (stamps ≠ [] → 0 < page_width → 0 < page_height →
      (∀ s ∈ stamps, (hex_to_rgb s.color).isOk = true) →
      (generate_stamp_overlay cosdeg sindeg page_width page_height
        stamps).isOk = true) := by
  refine ⟨?_, ?_, ?_⟩
  · intro h
    unfold generate_stamp_overlay
    rw [if_pos h]
  · intro hne hdim
    unfold generate_stamp_overlay
    rw [if_neg hne, if_pos hdim]
  · intro hne hw hh hcolors
    unfold generate_stamp_overlay
    rw [if_neg hne, if_neg (by simp only [not_or, not_le]; exact ⟨hw, hh⟩)]
    apply mapM_draw_stamp_isOk
    intro p hp
    apply hcolors
    have hmap := placeStamps_map_stamp cosdeg sindeg compute_tilt
      (page_width * (9 / 10) - page_width * (1 / 5) / 2) (page_width * (1 / 5))
      stamps (page_height * (9 / 10))
    unfold calculate_stamp_placements at hp
    rw [← hmap]
    exact List.mem_map_of_mem StampPlacement.stamp hp

/-- Witness for C8 at concrete inputs, covering all three cases. -/
theorem claim8_witness :
    generate_stamp_overlay cosOne sinZero 600 800 [] =
      .error (.stampGeneration "At least one stamp is required") ∧
    generate_stamp_overlay cosOne sinZero 0 800 [egStamp] =
      .error (.stampGeneration (invalidDimensionsMessage 0 800)) ∧
    generate_stamp_overlay cosOne sinZero (-100) 800 [egStamp] =
      .error (.stampGeneration (invalidDimensionsMessage (-100) 800)) ∧
    (generate_stamp_overlay cosOne sinZero 600 800 [egStamp]).isOk = true :=
  ⟨(claim8_overlay_validation cosOne sinZero 600 800 []).1 rfl,
    (claim8_overlay_validation cosOne sinZero 0 800 [egStamp]).2.1
      (by decide) (by norm_num),
    (claim8_overlay_validation cosOne sinZero (-100) 800 [egStamp]).2.1
      (by decide) (by norm_num),
    (claim8_overlay_validation cosOne sinZero 600 800 [egStamp]).2.2
      (by decide) (by norm_num) (by norm_num)
      (by intro s hs; simp only [List.mem_singleton] at hs; subst hs; decide)⟩

/-! ## C9: date resolution -/

/-- A returned field value is the stripped form of some entry's raw
value, and is non-blank. -/
theorem findFieldValue_spec :
    ∀ (cfs : List CustomFieldEntry) (field_id : Int) (v : String),
      findFieldValue field_id cfs = some v →
      v ≠ "" ∧ ∃ cf ∈ cfs, ∃ raw, cf.value = some raw ∧ v = pyStrip raw := by
  intro cfs
  induction cfs with
  | nil => intro fid v h; exact absurd h (by simp [findFieldValue])
  | cons cf rest ih =>
    intro fid v h
    rw [findFieldValue.eq_def] at h
    dsimp only at h
    split at h
    · split at h
      · split at h
        · next hne =>
          rw [Option.some_inj] at h
          subst h
          exact ⟨hne, cf, by simp, _, by assumption, rfl⟩
        · obtain ⟨hv, cf', hmem, raw, hraw, hstrip⟩ := ih fid v h
          exact ⟨hv, cf', by simp [hmem], raw, hraw, hstrip⟩
      · obtain ⟨hv, cf', hmem, raw, hraw, hstrip⟩ := ih fid v h
        exact ⟨hv, cf', by simp [hmem], raw, hraw, hstrip⟩
    · obtain ⟨hv, cf', hmem, raw, hraw, hstrip⟩ := ih fid v h
      exact ⟨hv, cf', by simp [hmem], raw, hraw, hstrip⟩

/-- A custom field read yields the trimmed value of an entry present on
the document, never blank. -/
theorem get_field_value_spec (field_name_to_id : List (String × Int))
    (document : Document) (field_name : String) (v : String)
    (h : get_field_value field_name_to_id document field_name = some v) :
    v ≠ "" ∧ ∃ cf ∈ document.custom_fields, ∃ raw,
      cf.value = some raw ∧ v = pyStrip raw := by
  unfold get_field_value at h
  split at h
  · exact absurd h (by simp)
  · exact findFieldValue_spec _ _ v h

/-- C9: the stamp date is the trimmed configured custom field value when
that field is configured, present and non-blank; otherwise, for a
`received` stamp under the `created` fallback policy, the first ten
characters of the created timestamp; otherwise nothing. -/
theorem claim9_date_resolution (stamp_type : String) (document : Document)
    (config : WorkerConfig) (field_name_to_id : List (String × Int)) :
    (∀ field_name value,
      config.get_date_field_name stamp_type = some field_name →
      field_name ≠ "" →
      get_field_value field_name_to_id document field_name = some value →
      resolve_stamp_date stamp_type document config field_name_to_id =
        some value) ∧
    (∀ field_name value,
      get_field_value field_name_to_id document field_name = some value →
      value ≠ "" ∧ ∃ cf ∈ document.custom_fields, ∃ raw,
        cf.value = some raw ∧ value = pyStrip raw) ∧
    ((∀ field_name, config.get_date_field_name stamp_type = some field_name →
        field_name ≠ "" →
        get_field_value field_name_to_id document field_name = none) →
      stamp_type = "received" → config.received_date_fallback = "created" →
      ∀ created, document.created = some created → created ≠ "" →
      resolve_stamp_date stamp_type document config field_name_to_id =
        some (String.mk (created.toList.take 10))) ∧
    ((∀ field_name, config.get_date_field_name stamp_type = some field_name →
        field_name ≠ "" →
        get_field_value field_name_to_id document field_name = none) →
      (stamp_type = "received" → config.received_date_fallback = "created" →
        document.created.getD "" = "") →
      resolve_stamp_date stamp_type document config field_name_to_id =
        none) := by
  have hstep : ∀ (hno : ∀ field_name,
      config.get_date_field_name stamp_type = some field_name →
      field_name ≠ "" →
      get_field_value field_name_to_id document field_name = none),
      (match config.get_date_field_name stamp_type with
        | some field_name =>
          if field_name ≠ "" then
            match get_field_value field_name_to_id document field_name with
            | some value => if value ≠ "" then some value else none
            | none => none
          else none
        | none => none) = (none : Option String) := by
    intro hno
    cases hdf : config.get_date_field_name stamp_type with
    | none => rfl
    | some field_name =>
      dsimp only
      by_cases hfe : field_name = ""
      · rw [if_neg (by simp [hfe])]
      · rw [if_pos hfe, hno field_name hdf hfe]
  refine ⟨?_, ?_, ?_, ?_⟩
  · intro field_name value hdf hfne hval
    have hvne := (get_field_value_spec field_name_to_id document field_name
      value hval).1
    unfold resolve_stamp_date
    rw [hdf]
    dsimp only
    rw [if_pos hfne, hval]
    dsimp only
    rw [if_pos hvne]
  · intro field_name value hval
    exact get_field_value_spec field_name_to_id document field_name value hval
  · intro hno hrec hpol created hcreated hcne
    unfold resolve_stamp_date
    rw [hstep hno]
    dsimp only
    rw [if_pos ⟨hrec, hpol⟩, hcreated]
    dsimp only
    rw [if_pos hcne]
  · intro hno hnofall
    unfold resolve_stamp_date
    rw [hstep hno]
    dsimp only
    by_cases hrp : stamp_type = "received" ∧
        config.received_date_fallback = "created"
    · rw [if_pos hrp]
      have := hnofall hrp.1 hrp.2
      cases hcreated : document.created with
      | none => rfl
      | some created =>
        dsimp only
        rw [hcreated] at this
        simp only [Option.getD_some] at this
        rw [if_neg (by simp [this])]
    · rw [if_neg hrp]

/-- Witness for C9: the configured-field case and the created-fallback
case at concrete documents. -/
theorem claim9_witness :
    resolve_stamp_date "paid" egDoc egConfigPaid egFields =
      some "2024-03-15" ∧
    resolve_stamp_date "received" egDocCreated egConfig egFields =
      some (String.mk ("2024-01-10T12:00:00Z".toList.take 10)) :=
  ⟨(claim9_date_resolution "paid" egDoc egConfigPaid egFields).1
      "Paid Date" "2024-03-15" (by decide) (by decide) (by decide),
    (claim9_date_resolution "received" egDocCreated egConfig egFields).2.2.1
      (by intro fn h
          simp [WorkerConfig.get_date_field_name, egConfig] at h)
      rfl rfl "2024-01-10T12:00:00Z" rfl (by decide)⟩

/-! ## C3: the success tag transition -/

/-- Association-list lookup skips a binding with a different key. -/
theorem lookup_cons_ne {β : Type} (k : String) (b : β)
    (l : List (String × β)) (a : String) (h : a ≠ k) :
    ((k, b) :: l).lookup a = l.lookup a := by
  have hbeq : (a == k) = false := beq_eq_false_iff_ne.mpr h
  simp [List.lookup, hbeq]

/-- Appending to a fixed string is injective. -/
theorem string_append_inj {p a b : String} (h : p ++ a = p ++ b) : a = b := by
  have hd := congrArg String.data h
  rw [String.data_append, String.data_append] at hd
  have h2 := List.append_cancel_left hd
  cases a
  cases b
  exact congrArg String.mk h2

/-- A trigger tag name never equals a done tag name. -/
theorem stamp_ne_stamped (a b : String) :
    "stamp:" ++ a ≠ "stamped:" ++ b := by
  intro h
  have hd := congrArg String.data h
  rw [String.data_append, String.data_append] at hd
  have h1 : "stamp:".data = ['s', 't', 'a', 'm', 'p', ':'] := rfl
  have h2 : "stamped:".data = ['s', 't', 'a', 'm', 'p', 'e', 'd', ':'] := rfl
  rw [h1, h2] at hd
  simp at hd

/-- Discarding from the working set erases from its underlying set. -/
theorem setDiscard_toFinset (s : List Int) (x : Int) :
    (setDiscard s x).toFinset = s.toFinset.erase x := by
  ext y
  simp [setDiscard]
  tauto

/-- Adding to the working set inserts into its underlying set. -/
theorem setAdd_toFinset (s : List Int) (x : Int) :
    (setAdd s x).toFinset = insert x s.toFinset := by
  unfold setAdd
  split
  · next hmem =>
    rw [Finset.insert_eq_self.mpr (List.mem_toFinset.mpr hmem)]
  · ext y
    simp
    tauto

/-- The deduplication fold accumulates exactly the elements. -/
theorem pySet_foldl_toFinset :
    ∀ (l acc : List Int),
      (l.foldl setAdd acc).toFinset = acc.toFinset ∪ l.toFinset := by
  intro l
  induction l with
  | nil => intro acc; simp
  | cons x rest ih =>
    intro acc
    rw [List.foldl_cons, ih, setAdd_toFinset]
    ext y
    simp

/-- Python set() preserves the underlying set of elements. -/
theorem pySet_toFinset (l : List Int) : (pySet l).toFinset = l.toFinset := by
  unfold pySet
  rw [pySet_foldl_toFinset]
  simp

/-- Sorting preserves the underlying set of elements. -/
theorem pySorted_toFinset (s : List Int) :
    (pySorted s).toFinset = s.toFinset := by
  ext y
  simp only [List.mem_toFinset]
  exact (List.perm_insertionSort _ s).mem_iff

/-- Trigger-set unfolding when the head type's trigger resolves. -/
theorem trigSet_cons_some {tag_resolver : TagResolver} {t : String}
    {ts : List String} {i : Int} (h : triggerIdOf tag_resolver t = some i) :
    trigSet tag_resolver (t :: ts) = insert (i : ℤ) (trigSet tag_resolver ts) := by
  unfold trigSet
  rw [List.filterMap_cons, h]
  simp

/-- Trigger-set unfolding when the head type's trigger is unknown. -/
theorem trigSet_cons_none {tag_resolver : TagResolver} {t : String}
    {ts : List String} (h : triggerIdOf tag_resolver t = none) :
    trigSet tag_resolver (t :: ts) = trigSet tag_resolver ts := by
  unfold trigSet
  rw [List.filterMap_cons, h]

/-- Done-set unfolding when the head type's done id resolves. -/
theorem doneSet_cons_some {PDF : Type} {client : ClientOps PDF}
    {tag_resolver : TagResolver} {t : String} {ts : List String} {i : Int}
    (h : doneIdOf client tag_resolver t = some i) :
    doneSet client tag_resolver (t :: ts) =
      insert (i : ℤ) (doneSet client tag_resolver ts) := by
  unfold doneSet
  rw [List.filterMap_cons, h]
  simp

/-- The per-step set identity of the swap loop when the trigger id is
known. -/
theorem finset_step_some {sF T D : Finset ℤ} {i did : ℤ} (hnot : did ∉ T) :
    (insert did (sF.erase i) \ T) ∪ D = (sF \ insert i T) ∪ insert did D := by
  ext y
  simp only [Finset.mem_union, Finset.mem_sdiff, Finset.mem_insert,
    Finset.mem_erase]
  constructor
  · rintro (⟨rfl | ⟨hyi, hys⟩, hnt⟩ | h)
    · right; left; rfl
    · left; exact ⟨hys, by simp [hyi, hnt]⟩
    · right; right; exact h
  · rintro (⟨hys, hni⟩ | rfl | h)
    · simp only [not_or] at hni
      left; exact ⟨Or.inr ⟨hni.1, hys⟩, hni.2⟩
    · left; exact ⟨Or.inl rfl, hnot⟩
    · right; exact h

/-- The per-step set identity of the swap loop when the trigger id is
unknown. -/
theorem finset_step_none {sF T D : Finset ℤ} {did : ℤ} (hnot : did ∉ T) :
    (insert did sF \ T) ∪ D = (sF \ T) ∪ insert did D := by
  ext y
  simp only [Finset.mem_union, Finset.mem_sdiff, Finset.mem_insert]
  constructor
  · rintro (⟨rfl | hys, hnt⟩ | h)
    · right; left; rfl
    · left; exact ⟨hys, hnt⟩
    · right; right; exact h
  · rintro (⟨hys, hnt⟩ | rfl | h)
    · left; exact ⟨Or.inr hys, hnt⟩
    · left; exact ⟨Or.inl rfl, hnot⟩
    · right; exact h

/-- Extending the resolver cache with a done tag leaves trigger lookups
unchanged. -/
theorem triggerIdOf_extend (tag_resolver : TagResolver) (t : String)
    (did : Int) (u : String) :
    triggerIdOf
      { name_to_id := ("stamped:" ++ t, did) :: tag_resolver.name_to_id,
        id_to_name := (did, "stamped:" ++ t) :: tag_resolver.id_to_name } u =
      triggerIdOf tag_resolver u := by
  unfold triggerIdOf
  exact lookup_cons_ne _ _ _ _ (stamp_ne_stamped u t)

/-- Extending the resolver cache with a freshly created done tag leaves
done-id resolution unchanged (the creation is replayed from the cache). -/
theorem doneIdOf_extend {PDF : Type} (client : ClientOps PDF)
    (tag_resolver : TagResolver) (t : String) (did : Int)
    (hnone : tag_resolver.name_to_id.lookup ("stamped:" ++ t) = none)
    (hcreate : client.create_tag ("stamped:" ++ t) = .ok did) (u : String) :
    doneIdOf client
      { name_to_id := ("stamped:" ++ t, did) :: tag_resolver.name_to_id,
        id_to_name := (did, "stamped:" ++ t) :: tag_resolver.id_to_name } u =
      doneIdOf client tag_resolver u := by
  unfold doneIdOf
  by_cases hu : u = t
  · subst hu
    have hc : (("stamped:" ++ u, did) :: tag_resolver.name_to_id).lookup
        ("stamped:" ++ u) = some did := by
      simp [List.lookup]
    rw [hc, hnone, hcreate]
    rfl
  · have hne : ("stamped:" ++ u : String) ≠ "stamped:" ++ t := by
      intro h
      exact hu (string_append_inj h)
    rw [lookup_cons_ne _ _ _ _ hne]

/-- The swap loop succeeds when every done id resolves, leaves the
working set at (s minus triggers) union dones, and issues only
tag-creation calls. -/
theorem swapLoop_spec {PDF : Type} (client : ClientOps PDF) :
    ∀ (types : List String) (tag_resolver : TagResolver) (s : List Int),
      (∀ t ∈ types, (doneIdOf client tag_resolver t).isSome) →
      (∀ t ∈ types, ∀ u ∈ types, ∀ i j, triggerIdOf tag_resolver u = some i →
        doneIdOf client tag_resolver t = some j → j ≠ i) →
      ∃ s2 r2 calls,
        swapLoop client types tag_resolver s = (.ok (s2, r2), calls) ∧
        s2.toFinset = (s.toFinset \ trigSet tag_resolver types) ∪
          doneSet client tag_resolver types ∧
        ∀ c ∈ calls, c.isUpdateTags = false ∧ c.isAddNote = false := by
  intro types
  induction types with
  | nil =>
    intro r s _ _
    exact ⟨s, r, [], rfl, by simp [trigSet, doneSet], by simp⟩
  | cons t rest ih =>
    intro r s hd hdisj
    obtain ⟨did, hdid⟩ := Option.isSome_iff_exists.mp (hd t (by simp))
    have hnotrig : (did : ℤ) ∉ trigSet r rest := by
      intro hmem
      unfold trigSet at hmem
      rw [List.mem_toFinset, List.mem_filterMap] at hmem
      obtain ⟨u, hu, hui⟩ := hmem
      exact hdisj t (by simp) u (by simp [hu]) did did hui hdid rfl
    rw [swapLoop.eq_def]
    dsimp only
    cases htr : List.lookup ("stamp:" ++ t) r.name_to_id with
    | some i =>
      have htrig_t : triggerIdOf r t = some i := htr
      dsimp only
      cases hlook : List.lookup ("stamped:" ++ t) r.name_to_id with
      | some existing =>
        have hdid2 : doneIdOf client r t = some existing := by
          unfold doneIdOf
          rw [hlook]
        have hex : existing = did := Option.some_inj.mp (hdid2 ▸ hdid)
        subst hex
        have he : ensure_tag client r ("stamped:" ++ t) =
            (.ok (existing, r), []) := by
          unfold ensure_tag
          rw [hlook]
        rw [he]
        dsimp only
        obtain ⟨s2, r2, calls, heq, hset, hcalls⟩ :=
          ih r (setAdd (setDiscard s i) existing)
            (fun u hu => hd u (by simp [hu]))
            (fun a ha u hu i' j hti hdj =>
              hdisj a (by simp [ha]) u (by simp [hu]) i' j hti hdj)
        refine ⟨s2, r2, calls, by rw [heq]; rfl, ?_, hcalls⟩
        rw [hset, setAdd_toFinset, setDiscard_toFinset,
          trigSet_cons_some htrig_t, doneSet_cons_some hdid2]
        exact finset_step_some hnotrig
      | none =>
        have hdid2 : doneIdOf client r t =
            (client.create_tag ("stamped:" ++ t)).toOption := by
          unfold doneIdOf
          rw [hlook]
        have hcreate : client.create_tag ("stamped:" ++ t) = .ok did := by
          rw [hdid2] at hdid
          cases hc : client.create_tag ("stamped:" ++ t) with
          | ok v =>
            rw [hc] at hdid
            simp only [Except.toOption, Option.some_inj] at hdid
            rw [hdid]
          | error e =>
            rw [hc] at hdid
            simp [Except.toOption] at hdid
        have hdone_t : doneIdOf client r t = some did := by
          rw [hdid2, hcreate]
          rfl
        have he : ensure_tag client r ("stamped:" ++ t) =
            (.ok (did,
              { name_to_id := ("stamped:" ++ t, did) :: r.name_to_id,
                id_to_name := (did, "stamped:" ++ t) :: r.id_to_name }),
              [.createTag ("stamped:" ++ t)]) := by
          unfold ensure_tag
          rw [hlook, hcreate]
        rw [he]
        dsimp only
        have htrans := doneIdOf_extend client r t did hlook hcreate
        have htrig := triggerIdOf_extend r t did
        obtain ⟨s2, r3, calls, heq, hset, hcalls⟩ :=
          ih ⟨("stamped:" ++ t, did) :: r.name_to_id,
              (did, "stamped:" ++ t) :: r.id_to_name⟩
            (setAdd (setDiscard s i) did)
            (fun u hu => by rw [htrans u]; exact hd u (by simp [hu]))
            (fun a ha u hu i' j hti hdj => by
              rw [htrig u] at hti
              rw [htrans a] at hdj
              exact hdisj a (by simp [ha]) u (by simp [hu]) i' j hti hdj)
        have htrigset : trigSet
            ⟨("stamped:" ++ t, did) :: r.name_to_id,
              (did, "stamped:" ++ t) :: r.id_to_name⟩ rest =
            trigSet r rest := by
          unfold trigSet
          rw [List.filterMap_congr (fun u _ => htrig u)]
        have hdoneset : doneSet client
            ⟨("stamped:" ++ t, did) :: r.name_to_id,
              (did, "stamped:" ++ t) :: r.id_to_name⟩ rest =
            doneSet client r rest := by
          unfold doneSet
          rw [List.filterMap_congr (fun u _ => htrans u)]
        refine ⟨s2, r3, .createTag ("stamped:" ++ t) :: calls,
          by rw [heq]; rfl, ?_, ?_⟩
        · rw [hset, htrigset, hdoneset, setAdd_toFinset, setDiscard_toFinset,
            trigSet_cons_some htrig_t, doneSet_cons_some hdone_t]
          exact finset_step_some hnotrig
        · intro c hc
          rcases List.mem_cons.mp hc with rfl | hc
          · exact ⟨rfl, rfl⟩
          · exact hcalls c hc
    | none =>
      have htrig_t : triggerIdOf r t = none := htr
      dsimp only
      cases hlook : List.lookup ("stamped:" ++ t) r.name_to_id with
      | some existing =>
        have hdid2 : doneIdOf client r t = some existing := by
          unfold doneIdOf
          rw [hlook]
        have hex : existing = did := Option.some_inj.mp (hdid2 ▸ hdid)
        subst hex
        have he : ensure_tag client r ("stamped:" ++ t) =
            (.ok (existing, r), []) := by
          unfold ensure_tag
          rw [hlook]
        rw [he]
        dsimp only
        obtain ⟨s2, r2, calls, heq, hset, hcalls⟩ :=
          ih r (setAdd s existing)
            (fun u hu => hd u (by simp [hu]))
            (fun a ha u hu i' j hti hdj =>
              hdisj a (by simp [ha]) u (by simp [hu]) i' j hti hdj)
        refine ⟨s2, r2, calls, by rw [heq]; rfl, ?_, hcalls⟩
        rw [hset, setAdd_toFinset, trigSet_cons_none htrig_t,
          doneSet_cons_some hdid2]
        exact finset_step_none hnotrig
      | none =>
        have hdid2 : doneIdOf client r t =
            (client.create_tag ("stamped:" ++ t)).toOption := by
          unfold doneIdOf
          rw [hlook]
        have hcreate : client.create_tag ("stamped:" ++ t) = .ok did := by
          rw [hdid2] at hdid
          cases hc : client.create_tag ("stamped:" ++ t) with
          | ok v =>
            rw [hc] at hdid
            simp only [Except.toOption, Option.some_inj] at hdid
            rw [hdid]
          | error e =>
            rw [hc] at hdid
            simp [Except.toOption] at hdid
        have hdone_t : doneIdOf client r t = some did := by
          rw [hdid2, hcreate]
          rfl
        have he : ensure_tag client r ("stamped:" ++ t) =
            (.ok (did,
              { name_to_id := ("stamped:" ++ t, did) :: r.name_to_id,
                id_to_name := (did, "stamped:" ++ t) :: r.id_to_name }),
              [.createTag ("stamped:" ++ t)]) := by
          unfold ensure_tag
          rw [hlook, hcreate]
        rw [he]
        dsimp only
        have htrans := doneIdOf_extend client r t did hlook hcreate
        have htrig := triggerIdOf_extend r t did
        obtain ⟨s2, r3, calls, heq, hset, hcalls⟩ :=
          ih ⟨("stamped:" ++ t, did) :: r.name_to_id,
              (did, "stamped:" ++ t) :: r.id_to_name⟩
            (setAdd s did)
            (fun u hu => by rw [htrans u]; exact hd u (by simp [hu]))
            (fun a ha u hu i' j hti hdj => by
              rw [htrig u] at hti
              rw [htrans a] at hdj
              exact hdisj a (by simp [ha]) u (by simp [hu]) i' j hti hdj)
        have htrigset : trigSet
            ⟨("stamped:" ++ t, did) :: r.name_to_id,
              (did, "stamped:" ++ t) :: r.id_to_name⟩ rest =
            trigSet r rest := by
          unfold trigSet
          rw [List.filterMap_congr (fun u _ => htrig u)]
        have hdoneset : doneSet client
            ⟨("stamped:" ++ t, did) :: r.name_to_id,
              (did, "stamped:" ++ t) :: r.id_to_name⟩ rest =
            doneSet client r rest := by
          unfold doneSet
          rw [List.filterMap_congr (fun u _ => htrans u)]
        refine ⟨s2, r3, .createTag ("stamped:" ++ t) :: calls,
          by rw [heq]; rfl, ?_, ?_⟩
        · rw [hset, htrigset, hdoneset, setAdd_toFinset,
            trigSet_cons_none htrig_t, doneSet_cons_some hdone_t]
          exact finset_step_none hnotrig
        · intro c hc
          rcases List.mem_cons.mp hc with rfl | hc
          · exact ⟨rfl, rfl⟩
          · exact hcalls c hc

/-- C3: on the success path, the tag swap issues exactly one update
call whose tag set is the document's original tag set minus the resolved
trigger ids plus the resolved-or-created done ids; ids unrelated to the
processed types are preserved, and nothing else is added. -/
theorem claim3_success_tag_transition {PDF : Type} (client : ClientOps PDF)
    (document : Document) (stamp_types : List String)
    (tag_resolver : TagResolver)
    (hd : ∀ t ∈ stamp_types, (doneIdOf client tag_resolver t).isSome)
    (hdisj : ∀ t ∈ stamp_types, ∀ u ∈ stamp_types, ∀ i j,
      triggerIdOf tag_resolver u = some i →
      doneIdOf client tag_resolver t = some j → j ≠ i)
    (hupd : ∀ tag_ids,
      (client.update_document_tags document.id tag_ids).isOk = true) :
    ∃ r2 calls tag_ids,
      swap_tags client document stamp_types tag_resolver = (.ok r2, calls) ∧
      calls.filter ApiCall.isUpdateTags =
        [.updateTags document.id tag_ids] ∧
      tag_ids.toFinset =
        (document.tags.toFinset \ trigSet tag_resolver stamp_types) ∪
          doneSet client tag_resolver stamp_types ∧
      (∀ tid ∈ document.tags, tid ∉ trigSet tag_resolver stamp_types →
        tid ∈ tag_ids) ∧
      (∀ tid ∈ tag_ids, tid ∈ document.tags ∨
        tid ∈ doneSet client tag_resolver stamp_types) := by
  obtain ⟨s2, r2, calls, heq, hset, hcalls⟩ :=
    swapLoop_spec client stamp_types tag_resolver (pySet document.tags)
      hd hdisj
  have hfin : (pySorted s2).toFinset =
      (document.tags.toFinset \ trigSet tag_resolver stamp_types) ∪
        doneSet client tag_resolver stamp_types := by
    rw [pySorted_toFinset, hset, pySet_toFinset]
  have hu := hupd (pySorted s2)
  refine ⟨r2, calls ++ [.updateTags document.id (pySorted s2)], pySorted s2,
    ?_, ?_, hfin, ?_, ?_⟩
  · unfold swap_tags
    rw [heq]
    dsimp only
    cases hc : client.update_document_tags document.id (pySorted s2) with
    | ok u => rfl
    | error e =>
      rw [hc] at hu
      exact absurd hu (by simp [Except.isOk, Except.toBool])
  · rw [List.filter_append]
    have h1 : calls.filter ApiCall.isUpdateTags = [] := by
      rw [List.filter_eq_nil_iff]
      intro c hc
      simp [(hcalls c hc).1]
    rw [h1]
    rfl
  · intro tid htid htrig
    rw [← List.mem_toFinset, hfin]
    exact Finset.mem_union_left _
      (Finset.mem_sdiff.mpr ⟨List.mem_toFinset.mpr htid, htrig⟩)
  · intro tid htid
    have := List.mem_toFinset.mpr htid
    rw [hfin] at this
    rcases Finset.mem_union.mp this with h | h
    · exact Or.inl (List.mem_toFinset.mp (Finset.mem_sdiff.mp h).1)
    · exact Or.inr h

/-- Witness for C3 at the sample document and resolver. -/
theorem claim3_witness :
    ∃ r2 calls tag_ids,
      swap_tags egClientOk egDoc ["paid"] egResolver = (.ok r2, calls) ∧
      calls.filter ApiCall.isUpdateTags = [.updateTags egDoc.id tag_ids] ∧
      tag_ids.toFinset =
        (egDoc.tags.toFinset \ trigSet egResolver ["paid"]) ∪
          doneSet egClientOk egResolver ["paid"] ∧
      (∀ tid ∈ egDoc.tags, tid ∉ trigSet egResolver ["paid"] →
        tid ∈ tag_ids) ∧
      (∀ tid ∈ tag_ids, tid ∈ egDoc.tags ∨
        tid ∈ doneSet egClientOk egResolver ["paid"]) :=
  claim3_success_tag_transition egClientOk egDoc ["paid"] egResolver
    (by decide)
    (by
      intro t ht u hu i j hti hdj
      simp only [List.mem_singleton] at ht hu
      subst ht
      subst hu
      rw [show triggerIdOf egResolver "paid" = some 1 from by decide] at hti
      rw [show doneIdOf egClientOk egResolver "paid" = some 3 from by
        decide] at hdj
      rw [Option.some_inj] at hti hdj
      omega)
    (fun _ => rfl)

/-! ## Error-path machinery for C1, C4 and C10 -/

/-- Erasing then subtracting equals subtracting the enlarged set. -/
theorem erase_sdiff_insert (sF T : Finset ℤ) (i : ℤ) :
    (sF.erase i) \ T = sF \ insert i T := by
  ext y
  simp only [Finset.mem_sdiff, Finset.mem_erase, Finset.mem_insert, not_or]
  tauto

/-- The trigger-discard fold removes exactly the resolved trigger ids. -/
theorem foldl_discard_toFinset (tag_resolver : TagResolver) :
    ∀ (types : List String) (s : List Int),
      (types.foldl (fun s' stamp_type =>
        match tag_resolver.name_to_id.lookup ("stamp:" ++ stamp_type) with
        | some trigger_id => setDiscard s' trigger_id
        | none => s') s).toFinset =
        s.toFinset \ trigSet tag_resolver types := by
  intro types
  induction types with
  | nil => intro s; simp [trigSet]
  | cons t rest ih =>
    intro s
    rw [List.foldl_cons]
    cases htr : List.lookup ("stamp:" ++ t) tag_resolver.name_to_id with
    | some i =>
      have htrig_t : triggerIdOf tag_resolver t = some i := htr
      dsimp only
      rw [ih, setDiscard_toFinset, trigSet_cons_some htrig_t,
        erase_sdiff_insert]
    | none =>
      have htrig_t : triggerIdOf tag_resolver t = none := htr
      dsimp only
      rw [ih, trigSet_cons_none htrig_t]

/-- The error handler, when the error tag resolves or creates, returns
normally, issues exactly one tag update (triggers removed, error tag
added) and one note carrying the error message, and swallows the
outcomes of both calls. -/
theorem handle_error_spec {PDF : Type} (client : ClientOps PDF)
    (document : Document) (stamp_types : List String)
    (error_message : String) (tag_resolver : TagResolver) (errId : Int)
    (herr : errorTagIdOf client tag_resolver = some errId) :
    ∃ r2 calls tag_ids,
      handle_error client document stamp_types error_message tag_resolver =
        (.ok r2, calls) ∧
      calls.filter ApiCall.isUpdateTags =
        [.updateTags document.id tag_ids] ∧
      calls.filter ApiCall.isAddNote =
        [.addNote document.id
          ("[paperless-stamp] Stamping failed: " ++ error_message)] ∧
      tag_ids.toFinset = insert (errId : ℤ)
        (document.tags.toFinset \ trigSet tag_resolver stamp_types) := by
  unfold handle_error
  dsimp only
  cases hlook : List.lookup "stamp:error" tag_resolver.name_to_id with
  | some i =>
    have hieq : i = errId := by
      unfold errorTagIdOf at herr
      rw [hlook] at herr
      exact Option.some_inj.mp herr
    subst hieq
    have he : ensure_tag client tag_resolver "stamp:error" =
        (.ok (i, tag_resolver), []) := by
      unfold ensure_tag
      rw [hlook]
    rw [he]
    dsimp only
    refine ⟨tag_resolver, _, _, rfl, rfl, rfl, ?_⟩
    rw [pySorted_toFinset, setAdd_toFinset, foldl_discard_toFinset,
      pySet_toFinset]
  | none =>
    have hcreate : client.create_tag "stamp:error" = .ok errId := by
      unfold errorTagIdOf at herr
      rw [hlook] at herr
      cases hc : client.create_tag "stamp:error" with
      | ok v =>
        rw [hc] at herr
        simp only [Except.toOption, Option.some_inj] at herr
        rw [herr]
      | error e =>
        rw [hc] at herr
        simp [Except.toOption] at herr
    have he : ensure_tag client tag_resolver "stamp:error" =
        (.ok (errId,
          { name_to_id := ("stamp:error", errId) :: tag_resolver.name_to_id,
            id_to_name := (errId, "stamp:error") :: tag_resolver.id_to_name }),
          [.createTag "stamp:error"]) := by
      unfold ensure_tag
      rw [hlook, hcreate]
    rw [he]
    dsimp only
    refine ⟨_, _, _, rfl, rfl, rfl, ?_⟩
    rw [pySorted_toFinset, setAdd_toFinset, foldl_discard_toFinset,
      pySet_toFinset]

/-- The trace of the core pipeline is either the download call alone or
the download and upload calls. -/
theorem pipelineCore_trace {PDF : Type} (client : ClientOps PDF)
    (cosdeg sindeg : ℚ → ℚ) (document : Document) (config : WorkerConfig)
    (stamp_types : List String) (field_name_to_id : List (String × Int)) :
    (pipelineCore client cosdeg sindeg document config stamp_types
      field_name_to_id).2 = [.download document.id] ∨
    (pipelineCore client cosdeg sindeg document config stamp_types
      field_name_to_id).2 =
      [.download document.id, .upload document.id "stamped"] := by
  unfold pipelineCore
  cases client.download_document document.id with
  | error e => left; rfl
  | ok pdf_bytes =>
    dsimp only
    cases client.get_page1_dimensions pdf_bytes with
    | error e => left; rfl
    | ok dims =>
      obtain ⟨page_width, page_height⟩ := dims
      dsimp only
      cases generate_stamp_overlay cosdeg sindeg page_width page_height
          (build_stamp_configs document stamp_types config
            field_name_to_id) with
      | error e => left; rfl
      | ok overlay_pdf =>
        dsimp only
        cases client.merge_stamp_overlay pdf_bytes overlay_pdf with
        | error e => left; rfl
        | ok stamped_pdf =>
          dsimp only
          cases client.upload_version document.id stamped_pdf "stamped" with
          | error e => right; rfl
          | ok u => right; rfl

/-- The trace of the core pipeline contains no tag update and no note. -/
theorem pipelineCore_calls {PDF : Type} (client : ClientOps PDF)
    (cosdeg sindeg : ℚ → ℚ) (document : Document) (config : WorkerConfig)
    (stamp_types : List String) (field_name_to_id : List (String × Int)) :
    ∀ c ∈ (pipelineCore client cosdeg sindeg document config stamp_types
      field_name_to_id).2, c.isUpdateTags = false ∧ c.isAddNote = false := by
  intro c hc
  rcases pipelineCore_trace client cosdeg sindeg document config stamp_types
      field_name_to_id with h | h <;> rw [h] at hc <;>
    simp only [List.mem_cons, List.mem_singleton, List.not_mem_nil,
      or_false] at hc
  · subst hc
    exact ⟨rfl, rfl⟩
  · rcases hc with rfl | rfl
    · exact ⟨rfl, rfl⟩
    · exact ⟨rfl, rfl⟩

/-- With the provided upload operation the core pipeline never
succeeds. -/
theorem pipelineCore_not_ok {PDF : Type} (client : ClientOps PDF)
    (cosdeg sindeg : ℚ → ℚ) (document : Document) (config : WorkerConfig)
    (stamp_types : List String) (field_name_to_id : List (String × Int))
    (hupload : client.upload_version = provided_upload_version PDF) :
    (pipelineCore client cosdeg sindeg document config stamp_types
      field_name_to_id).1.isOk = false := by
  unfold pipelineCore
  cases h1 : client.download_document document.id with
  | error e => rfl
  | ok pdf_bytes =>
    dsimp only
    cases h2 : client.get_page1_dimensions pdf_bytes with
    | error e => rfl
    | ok dims =>
      obtain ⟨page_width, page_height⟩ := dims
      dsimp only
      cases h3 : generate_stamp_overlay cosdeg sindeg page_width page_height
          (build_stamp_configs document stamp_types config
            field_name_to_id) with
      | error e => rfl
      | ok overlay_pdf =>
        dsimp only
        cases h4 : client.merge_stamp_overlay pdf_bytes overlay_pdf with
        | error e => rfl
        | ok stamped_pdf =>
          dsimp only
          rw [hupload]
          rfl

/-- C1 counterexample: a document tagged `stamp:paid` whose download
fails, with no `stamp:error` tag and a failing tag creation — the error
handler's tag creation runs outside its try blocks, so process_document
raises instead of returning one failed StampResult per type. -/
theorem claim1_counterexample :
    extract_stamp_types egDoc egResolverNoError = ["paid"] ∧
    (runAttempt egClientBroken cosOne sinZero egDoc egConfig ["paid"]
      egResolverNoError egFields).1 =
      .error (.paperlessConnection "down") ∧
    process_document egClientBroken cosOne sinZero 7 egDoc egConfig
      egResolverNoError egFields =
      (.error (.paperlessAPI 500 "boom"), egResolverNoError,
        [.download 42, .createTag "stamp:error"]) :=
  ⟨by decide, by decide, by decide⟩

/-- C1 (amended): provided the shared error tag resolves or creates
successfully, any failure of the tag-update or note-attachment side
effects inside the error handler is swallowed — for every client
behavior of those two operations, a failed guarded region still ends
with process_document returning one failed StampResult per originally
discovered stamp type. -/
theorem claim1_error_path_amended {PDF : Type} (client : ClientOps PDF)
    (cosdeg sindeg : ℚ → ℚ) (elapsed_ms : Int) (document : Document)
    (config : WorkerConfig) (tag_resolver : TagResolver)
    (field_name_to_id : List (String × Int)) (e : PError)
    (acalls : List ApiCall) (errId : Int)
    (hne : extract_stamp_types document tag_resolver ≠ [])
    (hfail : runAttempt client cosdeg sindeg document config
      (extract_stamp_types document tag_resolver) tag_resolver
      field_name_to_id = (.error e, acalls))
    (herr : errorTagIdOf client tag_resolver = some errId) :
    ∃ r2 calls,
      process_document client cosdeg sindeg elapsed_ms document config
        tag_resolver field_name_to_id =
        (.ok ((extract_stamp_types document tag_resolver).map
          (failedResult document config e.message elapsed_ms)), r2, calls) ∧
      ∀ res ∈ (extract_stamp_types document tag_resolver).map
          (failedResult document config e.message elapsed_ms),
        res.success = false ∧ res.error_message = some e.message ∧
        res.stamp_date = none ∧ res.processing_ms = some elapsed_ms := by
  obtain ⟨r2, hcalls, tag_ids, hhe, -, -, -⟩ :=
    handle_error_spec client document
      (extract_stamp_types document tag_resolver) e.message tag_resolver
      errId herr
  refine ⟨r2, acalls ++ hcalls, ?_, ?_⟩
  · unfold process_document
    dsimp only
    rw [if_neg hne, hfail]
    dsimp only
    rw [hhe]
  · intro res hres
    rw [List.mem_map] at hres
    obtain ⟨stamp_type, -, rfl⟩ := hres
    exact ⟨rfl, rfl, rfl, rfl⟩

/-- Witness for C1's amended statement: the download-failure scenario
with failing update and note operations still yields the failed result
list. -/
theorem claim1_witness :
    ∃ r2 calls,
      process_document egClientBroken cosOne sinZero 7 egDoc egConfig
        egResolver egFields =
        (.ok ((extract_stamp_types egDoc egResolver).map
          (failedResult egDoc egConfig
            (PError.paperlessConnection "down").message 7)), r2, calls) ∧
      ∀ res ∈ (extract_stamp_types egDoc egResolver).map
          (failedResult egDoc egConfig
            (PError.paperlessConnection "down").message 7),
        res.success = false ∧
        res.error_message = some (PError.paperlessConnection "down").message ∧
        res.stamp_date = none ∧ res.processing_ms = some 7 :=
  claim1_error_path_amended egClientBroken cosOne sinZero 7 egDoc egConfig
    egResolver egFields (.paperlessConnection "down") [.download 42] 4
    (by decide) (by decide) (by decide)

/-- C4 counterexample: the pipeline fails at download (a step in the
claim's enumeration), yet no note is attached and no failed StampResult
list is returned — creating the shared error tag failed, and that
creation runs outside the error handler's try blocks. -/
theorem claim4_counterexample :
    extract_stamp_types egDoc egResolverNoError = ["paid"] ∧
    pipelineCore egClientBroken cosOne sinZero egDoc egConfig ["paid"]
      egFields = (.error (.paperlessConnection "down"), [.download 42]) ∧
    (process_document egClientBroken cosOne sinZero 11 egDoc egConfig
      egResolverNoError egFields).2.2.filter ApiCall.isAddNote = [] ∧
    (process_document egClientBroken cosOne sinZero 11 egDoc egConfig
      egResolverNoError egFields).1 = .error (.paperlessAPI 500 "boom") :=
  ⟨by decide, by decide, by decide, by decide⟩

/-- C4 (amended): on a failure of the core pipeline (download, dimension
read, render, merge or upload), provided the shared error tag resolves
or creates successfully, process_document returns exactly one failed StampResult per
discovered type — carrying the error message and elapsed time, with no
date — and the trace holds exactly one tag update, whose set is the
original tags minus every resolved trigger id plus the shared error tag
id, and exactly one note containing the error message. -/
theorem claim4_failure_marking {PDF : Type} (client : ClientOps PDF)
    (cosdeg sindeg : ℚ → ℚ) (elapsed_ms : Int) (document : Document)
    (config : WorkerConfig) (tag_resolver : TagResolver)
    (field_name_to_id : List (String × Int)) (e : PError)
    (pcalls : List ApiCall) (errId : Int)
    (hne : extract_stamp_types document tag_resolver ≠ [])
    (hcore : pipelineCore client cosdeg sindeg document config
      (extract_stamp_types document tag_resolver) field_name_to_id =
      (.error e, pcalls))
    (herr : errorTagIdOf client tag_resolver = some errId) :
    ∃ r2 calls tag_ids,
      process_document client cosdeg sindeg elapsed_ms document config
        tag_resolver field_name_to_id =
        (.ok ((extract_stamp_types document tag_resolver).map
          (failedResult document config e.message elapsed_ms)), r2, calls) ∧
      calls.filter ApiCall.isUpdateTags =
        [.updateTags document.id tag_ids] ∧
      tag_ids.toFinset = insert (errId : ℤ) (document.tags.toFinset \
        trigSet tag_resolver (extract_stamp_types document tag_resolver)) ∧
      calls.filter ApiCall.isAddNote =
        [.addNote document.id
          ("[paperless-stamp] Stamping failed: " ++ e.message)] ∧
      ∀ res ∈ (extract_stamp_types document tag_resolver).map
          (failedResult document config e.message elapsed_ms),
        res.success = false ∧ res.error_message = some e.message ∧
        res.stamp_date = none ∧ res.processing_ms = some elapsed_ms := by
  obtain ⟨r2, hcalls, tag_ids, hhe, hupd, hnote, hset⟩ :=
    handle_error_spec client document
      (extract_stamp_types document tag_resolver) e.message tag_resolver
      errId herr
  have hpc := pipelineCore_calls client cosdeg sindeg document config
    (extract_stamp_types document tag_resolver) field_name_to_id
  rw [hcore] at hpc
  have hfail : runAttempt client cosdeg sindeg document config
      (extract_stamp_types document tag_resolver) tag_resolver
      field_name_to_id = (.error e, pcalls) := by
    unfold runAttempt
    rw [hcore]
  refine ⟨r2, pcalls ++ hcalls, tag_ids, ?_, ?_, hset, ?_, ?_⟩
  · unfold process_document
    dsimp only
    rw [if_neg hne, hfail]
    dsimp only
    rw [hhe]
  · rw [List.filter_append, hupd]
    have : pcalls.filter ApiCall.isUpdateTags = [] := by
      rw [List.filter_eq_nil_iff]
      intro c hc
      simp [(hpc c hc).1]
    rw [this]
    rfl
  · rw [List.filter_append, hnote]
    have : pcalls.filter ApiCall.isAddNote = [] := by
      rw [List.filter_eq_nil_iff]
      intro c hc
      simp [(hpc c hc).2]
    rw [this]
    rfl
  · intro res hres
    rw [List.mem_map] at hres
    obtain ⟨stamp_type, -, rfl⟩ := hres
    exact ⟨rfl, rfl, rfl, rfl⟩

/-- Witness for C4 at the download-failure scenario with a working
error path. -/
theorem claim4_witness :
    ∃ r2 calls tag_ids,
      process_document egClientDown cosOne sinZero 7 egDoc egConfig
        egResolver egFields =
        (.ok ((extract_stamp_types egDoc egResolver).map
          (failedResult egDoc egConfig
            (PError.paperlessConnection "down").message 7)), r2, calls) ∧
      calls.filter ApiCall.isUpdateTags = [.updateTags egDoc.id tag_ids] ∧
      tag_ids.toFinset = insert (4 : ℤ) (egDoc.tags.toFinset \
        trigSet egResolver (extract_stamp_types egDoc egResolver)) ∧
      calls.filter ApiCall.isAddNote =
        [.addNote egDoc.id ("[paperless-stamp] Stamping failed: " ++
          (PError.paperlessConnection "down").message)] ∧
      ∀ res ∈ (extract_stamp_types egDoc egResolver).map
          (failedResult egDoc egConfig
            (PError.paperlessConnection "down").message 7),
        res.success = false ∧
        res.error_message = some (PError.paperlessConnection "down").message ∧
        res.stamp_date = none ∧ res.processing_ms = some 7 :=
  claim4_failure_marking egClientDown cosOne sinZero 7 egDoc egConfig
    egResolver egFields (.paperlessConnection "down") [.download 42] 4
    (by decide) (by decide) (by decide)

/-- C10: with the provided client's upload operation, the guarded region
of process_document never succeeds, so for every document with at least
one trigger tag no returned StampResult ever has success set. -/
theorem claim10_no_success_transition {PDF : Type} (client : ClientOps PDF)
    (cosdeg sindeg : ℚ → ℚ) (elapsed_ms : Int) (document : Document)
    (config : WorkerConfig) (tag_resolver : TagResolver)
    (field_name_to_id : List (String × Int))
    (hupload : client.upload_version = provided_upload_version PDF)
    (hne : extract_stamp_types document tag_resolver ≠ []) :
    (runAttempt client cosdeg sindeg document config
      (extract_stamp_types document tag_resolver) tag_resolver
      field_name_to_id).1.isOk = false ∧
    ∀ results r2 calls,
      process_document client cosdeg sindeg elapsed_ms document config
        tag_resolver field_name_to_id = (.ok results, r2, calls) →
      ∀ res ∈ results, res.success = false := by
  have hcore := pipelineCore_not_ok client cosdeg sindeg document config
    (extract_stamp_types document tag_resolver) field_name_to_id hupload
  have hfst : (runAttempt client cosdeg sindeg document config
      (extract_stamp_types document tag_resolver) tag_resolver
      field_name_to_id).1.isOk = false := by
    unfold runAttempt
    rcases hp : pipelineCore client cosdeg sindeg document config
        (extract_stamp_types document tag_resolver) field_name_to_id with
      ⟨pres, pcalls⟩
    rw [hp] at hcore
    cases pres with
    | ok v => exact absurd hcore (by simp [Except.isOk, Except.toBool])
    | error e => rfl
  refine ⟨hfst, ?_⟩
  intro results r2 calls heq
  unfold process_document at heq
  dsimp only at heq
  rw [if_neg hne] at heq
  rcases ha : runAttempt client cosdeg sindeg document config
      (extract_stamp_types document tag_resolver) tag_resolver
      field_name_to_id with ⟨ares, acalls⟩
  rw [ha] at hfst heq
  cases ares with
  | ok v => exact absurd hfst (by simp [Except.isOk, Except.toBool])
  | error e =>
    dsimp only at heq
    rcases hh : handle_error client document
        (extract_stamp_types document tag_resolver) e.message tag_resolver
      with ⟨hres, hcalls⟩
    rw [hh] at heq
    cases hres with
    | ok r3 =>
      dsimp only at heq
      rw [Prod.mk.injEq, Prod.mk.injEq] at heq
      obtain ⟨hres_eq, -, -⟩ := heq
      rw [Except.ok.injEq] at hres_eq
      subst hres_eq
      intro res hres
      rw [List.mem_map] at hres
      obtain ⟨stamp_type, -, rfl⟩ := hres
      rfl
    | error e2 =>
      dsimp only at heq
      rw [Prod.mk.injEq] at heq
      exact absurd heq.1 (by simp)

/-- Witness for C10 at the provided-upload client: every returned
result is failed. -/
theorem claim10_witness :
    (runAttempt egClientUploadNI cosOne sinZero egDoc egConfig
      (extract_stamp_types egDoc egResolver) egResolver egFields).1.isOk =
      false ∧
    ∀ results r2 calls,
      process_document egClientUploadNI cosOne sinZero 7 egDoc egConfig
        egResolver egFields = (.ok results, r2, calls) →
      ∀ res ∈ results, res.success = false :=
  claim10_no_success_transition egClientUploadNI cosOne sinZero 7 egDoc
    egConfig egResolver egFields rfl (by decide)

end PaperlessStamp
